import Mathlib

/-
Verification of the qtvncclient repository against its natural-language
specification.

The development shallowly embeds the relevant parts of the two source files

  src/vncclient/qvncdes_p.h    (self-contained DES for VNC authentication)
  src/vncclient/qvncclient.cpp (RFB protocol state machine and decoders)

into Lean.  Byte buffers are modeled as List Nat (each entry one byte),
machine integers as Nat with explicit masking where the C code masks,
the framebuffer as a total function Nat -> Nat -> Nat giving the QRgb
value of each pixel, and socket reads as take/drop on the inbound buffer.
The zlib library itself is external to the repository; the embedding
records interactions with the zlib streams (end / init / feed) as events,
which is what the claims about stream handling are about.
-/

set_option maxRecDepth 100000

/- ===================================================================
   Part 1.  DES (qvncdes_p.h)
   =================================================================== -/

/-- Initial Permutation table from qvncdes_p.h. -/
def IP_TABLE : List Nat := [
  58, 50, 42, 34, 26, 18, 10,  2,
  60, 52, 44, 36, 28, 20, 12,  4,
  62, 54, 46, 38, 30, 22, 14,  6,
  64, 56, 48, 40, 32, 24, 16,  8,
  57, 49, 41, 33, 25, 17,  9,  1,
  59, 51, 43, 35, 27, 19, 11,  3,
  61, 53, 45, 37, 29, 21, 13,  5,
  63, 55, 47, 39, 31, 23, 15,  7]

/-- Final Permutation table from qvncdes_p.h. -/
def FP_TABLE : List Nat := [
  40,  8, 48, 16, 56, 24, 64, 32,
  39,  7, 47, 15, 55, 23, 63, 31,
  38,  6, 46, 14, 54, 22, 62, 30,
  37,  5, 45, 13, 53, 21, 61, 29,
  36,  4, 44, 12, 52, 20, 60, 28,
  35,  3, 43, 11, 51, 19, 59, 27,
  34,  2, 42, 10, 50, 18, 58, 26,
  33,  1, 41,  9, 49, 17, 57, 25]

/-- Expansion permutation table from qvncdes_p.h. -/
def E_TABLE : List Nat := [
  32,  1,  2,  3,  4,  5,
   4,  5,  6,  7,  8,  9,
   8,  9, 10, 11, 12, 13,
  12, 13, 14, 15, 16, 17,
  16, 17, 18, 19, 20, 21,
  20, 21, 22, 23, 24, 25,
  24, 25, 26, 27, 28, 29,
  28, 29, 30, 31, 32,  1]

/-- P permutation table from qvncdes_p.h. -/
def P_TABLE : List Nat := [
  16,  7, 20, 21, 29, 12, 28, 17,
   1, 15, 23, 26,  5, 18, 31, 10,
   2,  8, 24, 14, 32, 27,  3,  9,
  19, 13, 30,  6, 22, 11,  4, 25]

/-- Permuted Choice 1 table from qvncdes_p.h. -/
def PC1_TABLE : List Nat := [
  57, 49, 41, 33, 25, 17,  9,
   1, 58, 50, 42, 34, 26, 18,
  10,  2, 59, 51, 43, 35, 27,
  19, 11,  3, 60, 52, 44, 36,
  63, 55, 47, 39, 31, 23, 15,
   7, 62, 54, 46, 38, 30, 22,
  14,  6, 61, 53, 45, 37, 29,
  21, 13,  5, 28, 20, 12,  4]

/-- Permuted Choice 2 table from qvncdes_p.h. -/
def PC2_TABLE : List Nat := [
  14, 17, 11, 24,  1,  5,
   3, 28, 15,  6, 21, 10,
  23, 19, 12,  4, 26,  8,
  16,  7, 27, 20, 13,  2,
  41, 52, 31, 37, 47, 55,
  30, 40, 51, 45, 33, 48,
  44, 49, 39, 56, 34, 53,
  46, 42, 50, 36, 29, 32]

/-- Key rotation schedule from qvncdes_p.h. -/
def KEY_SHIFTS : List Nat := [1, 1, 2, 2, 2, 2, 2, 2, 1, 2, 2, 2, 2, 2, 2, 1]

/-- The eight DES S-boxes from qvncdes_p.h. -/
def S_BOXES : List (List (List Nat)) := [
  [[14,  4, 13,  1,  2, 15, 11,  8,  3, 10,  6, 12,  5,  9,  0,  7],
   [ 0, 15,  7,  4, 14,  2, 13,  1, 10,  6, 12, 11,  9,  5,  3,  8],
   [ 4,  1, 14,  8, 13,  6,  2, 11, 15, 12,  9,  7,  3, 10,  5,  0],
   [15, 12,  8,  2,  4,  9,  1,  7,  5, 11,  3, 14, 10,  0,  6, 13]],
  [[15,  1,  8, 14,  6, 11,  3,  4,  9,  7,  2, 13, 12,  0,  5, 10],
   [ 3, 13,  4,  7, 15,  2,  8, 14, 12,  0,  1, 10,  6,  9, 11,  5],
   [ 0, 14,  7, 11, 10,  4, 13,  1,  5,  8, 12,  6,  9,  3,  2, 15],
   [13,  8, 10,  1,  3, 15,  4,  2, 11,  6,  7, 12,  0,  5, 14,  9]],
  [[10,  0,  9, 14,  6,  3, 15,  5,  1, 13, 12,  7, 11,  4,  2,  8],
   [13,  7,  0,  9,  3,  4,  6, 10,  2,  8,  5, 14, 12, 11, 15,  1],
   [13,  6,  4,  9,  8, 15,  3,  0, 11,  1,  2, 12,  5, 10, 14,  7],
   [ 1, 10, 13,  0,  6,  9,  8,  7,  4, 15, 14,  3, 11,  5,  2, 12]],
  [[ 7, 13, 14,  3,  0,  6,  9, 10,  1,  2,  8,  5, 11, 12,  4, 15],
   [13,  8, 11,  5,  6, 15,  0,  3,  4,  7,  2, 12,  1, 10, 14,  9],
   [10,  6,  9,  0, 12, 11,  7, 13, 15,  1,  3, 14,  5,  2,  8,  4],
   [ 3, 15,  0,  6, 10,  1, 13,  8,  9,  4,  5, 11, 12,  7,  2, 14]],
  [[ 2, 12,  4,  1,  7, 10, 11,  6,  8,  5,  3, 15, 13,  0, 14,  9],
   [14, 11,  2, 12,  4,  7, 13,  1,  5,  0, 15, 10,  3,  9,  8,  6],
   [ 4,  2,  1, 11, 10, 13,  7,  8, 15,  9, 12,  5,  6,  3,  0, 14],
   [11,  8, 12,  7,  1, 14,  2, 13,  6, 15,  0,  9, 10,  4,  5,  3]],
  [[12,  1, 10, 15,  9,  2,  6,  8,  0, 13,  3,  4, 14,  7,  5, 11],
   [10, 15,  4,  2,  7, 12,  9,  5,  6,  1, 13, 14,  0, 11,  3,  8],
   [ 9, 14, 15,  5,  2,  8, 12,  3,  7,  0,  4, 10,  1, 13, 11,  6],
   [ 4,  3,  2, 12,  9,  5, 15, 10, 11, 14,  1,  7,  6,  0,  8, 13]],
  [[ 4, 11,  2, 14, 15,  0,  8, 13,  3, 12,  9,  7,  5, 10,  6,  1],
   [13,  0, 11,  7,  4,  9,  1, 10, 14,  3,  5, 12,  2, 15,  8,  6],
   [ 1,  4, 11, 13, 12,  3,  7, 14, 10, 15,  6,  8,  0,  5,  9,  2],
   [ 6, 11, 13,  8,  1,  4, 10,  7,  9,  5,  0, 15, 14,  2,  3, 12]],
  [[13,  2,  8,  4,  6, 15, 11,  1, 10,  9,  3, 14,  5,  0, 12,  7],
   [ 1, 15, 13,  8, 10,  3,  7,  4, 12,  5,  6, 11,  0, 14,  9,  2],
   [ 7, 11,  4,  1,  9, 12, 14,  2,  0,  6, 10, 13, 15,  3,  5,  8],
   [ 2,  1, 14,  7,  4, 10,  8, 13, 15, 12,  9,  0,  3,  5,  6, 11]]]

/-- Get the bit at 1-indexed position pos from a byte array
(desGetBit in qvncdes_p.h). -/
def desGetBit (data : List Nat) (pos : Nat) : Nat :=
  (data.getD ((pos - 1) / 8) 0 >>> (7 - (pos - 1) % 8)) &&& 1

/-- Set the bit at 1-indexed position pos in a byte array
(desSetBit in qvncdes_p.h).  Bytes stay below 256 because the C code
works on quint8; clearing uses the 8-bit complement. -/
def desSetBit (data : List Nat) (pos : Nat) (val : Nat) : List Nat :=
  let byteIdx := (pos - 1) / 8
  let bitIdx := 7 - (pos - 1) % 8
  if val ≠ 0 then
    data.set byteIdx (data.getD byteIdx 0 ||| (1 <<< bitIdx))
  else
    data.set byteIdx (data.getD byteIdx 0 &&& (255 ^^^ (1 <<< bitIdx)))

/-- Generate the 16 round subkeys from an 8-byte key
(desKeySchedule in qvncdes_p.h). -/
def desKeySchedule (key : List Nat) : List (List Nat) :=
  let pc1 := (List.range 56).foldl (fun acc i =>
    if desGetBit key (PC1_TABLE.getD i 0) = 1 then desSetBit acc (i + 1) 1 else acc)
    (List.replicate 7 0)
  let c0 := (List.range 28).foldl (fun c i =>
    if desGetBit pc1 (i + 1) = 1 then c ||| (1 <<< (27 - i)) else c) 0
  let d0 := (List.range 28).foldl (fun d i =>
    if desGetBit pc1 (i + 29) = 1 then d ||| (1 <<< (27 - i)) else d) 0
  let final := (List.range 16).foldl (fun (st : Nat × Nat × List (List Nat)) round =>
    let c := st.1
    let d := st.2.1
    let subkeys := st.2.2
    let shift := KEY_SHIFTS.getD round 0
    let c := ((c <<< shift) ||| (c >>> (28 - shift))) &&& 0x0FFFFFFF
    let d := ((d <<< shift) ||| (d >>> (28 - shift))) &&& 0x0FFFFFFF
    let cd := (List.range 28).foldl (fun acc i =>
      let acc := if c &&& (1 <<< (27 - i)) ≠ 0 then desSetBit acc (i + 1) 1 else acc
      if d &&& (1 <<< (27 - i)) ≠ 0 then desSetBit acc (i + 29) 1 else acc)
      (List.replicate 7 0)
    let sk := (List.range 48).foldl (fun acc i =>
      if desGetBit cd (PC2_TABLE.getD i 0) = 1 then desSetBit acc (i + 1) 1 else acc)
      (List.replicate 6 0)
    (c, d, subkeys ++ [sk])) (c0, d0, [])
  final.2.2

/-- Feistel round function (desFeistel in qvncdes_p.h). -/
def desFeistel (right : List Nat) (subkey : List Nat) : List Nat :=
  let expanded := (List.range 48).foldl (fun acc i =>
    if desGetBit right (E_TABLE.getD i 0) = 1 then desSetBit acc (i + 1) 1 else acc)
    (List.replicate 6 0)
  let expanded := (List.range 6).map (fun i => expanded.getD i 0 ^^^ subkey.getD i 0)
  let sboxOut := (List.range 8).foldl (fun acc i =>
    let bit := i * 6 + 1
    let row := desGetBit expanded bit * 2 + desGetBit expanded (bit + 5)
    let col := desGetBit expanded (bit + 1) * 8 + desGetBit expanded (bit + 2) * 4
             + desGetBit expanded (bit + 3) * 2 + desGetBit expanded (bit + 4)
    let val := ((S_BOXES.getD i []).getD row []).getD col 0
    let outBit := i * 4 + 1
    let acc := desSetBit acc outBit ((val >>> 3) &&& 1)
    let acc := desSetBit acc (outBit + 1) ((val >>> 2) &&& 1)
    let acc := desSetBit acc (outBit + 2) ((val >>> 1) &&& 1)
    desSetBit acc (outBit + 3) (val &&& 1)) (List.replicate 4 0)
  (List.range 32).foldl (fun acc i =>
    if desGetBit sboxOut (P_TABLE.getD i 0) = 1 then desSetBit acc (i + 1) 1 else acc)
    (List.replicate 4 0)

/-- Encrypt a single 8-byte block with an 8-byte key using DES-ECB
(desEncryptBlock in qvncdes_p.h). -/
def desEncryptBlock (key input : List Nat) : List Nat :=
  let subkeys := desKeySchedule key
  let ip := (List.range 64).foldl (fun acc i =>
    if desGetBit input (IP_TABLE.getD i 0) = 1 then desSetBit acc (i + 1) 1 else acc)
    (List.replicate 8 0)
  let lr := (List.range 16).foldl (fun (lr : List Nat × List Nat) round =>
    let left := lr.1
    let right := lr.2
    let f := desFeistel right (subkeys.getD round [])
    let newRight := (List.range 4).map (fun i => left.getD i 0 ^^^ f.getD i 0)
    (right, newRight)) (ip.take 4, ip.drop 4)
  let preOutput := lr.2 ++ lr.1
  (List.range 64).foldl (fun acc i =>
    if desGetBit preOutput (FP_TABLE.getD i 0) = 1 then desSetBit acc (i + 1) 1 else acc)
    (List.replicate 8 0)

/-- Reverse the bits in a byte (desReverseBits in qvncdes_p.h); the
RFB-specific deviation from standard DES key handling. -/
def desReverseBits (b : Nat) : Nat :=
  let b := ((b &&& 0xF0) >>> 4) ||| ((b &&& 0x0F) <<< 4)
  let b := ((b &&& 0xCC) >>> 2) ||| ((b &&& 0x33) <<< 2)
  ((b &&& 0xAA) >>> 1) ||| ((b &&& 0x55) <<< 1)

/-- Encrypt a 16-byte VNC challenge using the password
(vncEncryptChallenge in qvncdes_p.h).  The password is modeled by its
Latin-1 byte list.  The key starts as eight zero bytes (memset) and the
first min(len, 8) password bytes are stored bit-reversed; the challenge
is encrypted as two DES-ECB blocks. -/
def vncEncryptChallenge (password challenge : List Nat) : List Nat :=
  let key := (List.range (min password.length 8)).foldl
    (fun k i => k.set i (desReverseBits (password.getD i 0)))
    (List.replicate 8 0)
  desEncryptBlock key (challenge.take 8) ++ desEncryptBlock key (challenge.drop 8)

/-- Key construction in the words of the specification: take the first
8 bytes of the password (truncating longer passwords, right-padding
shorter ones with zero bytes) and reverse the bit order of each byte
independently. -/
def vncAuthKey (password : List Nat) : List Nat :=
  ((password.take 8) ++ List.replicate (8 - (password.take 8).length) 0).map desReverseBits

/- ===================================================================
   Part 2.  Tight compact length (parseCompactLength in qvncclient.cpp)
   =================================================================== -/

/-- Parse a VNC compact length from a byte buffer at a given offset
(the parseCompactLength lambda in handleTightEncoding).  Returns
(bytes consumed, length), or none when the C code returns 0 meaning
not enough data. -/
def parseCompactLength (buf : List Nat) (off : Nat) : Option (Nat × Nat) :=
  if buf.length ≤ off then none
  else if buf.getD off 0 &&& 0x80 = 0 then some (1, buf.getD off 0)
  else if buf.length ≤ off + 1 then none
  else if buf.getD (off + 1) 0 &&& 0x80 = 0 then
    some (2, (buf.getD off 0 &&& 0x7F) ||| (buf.getD (off + 1) 0 <<< 7))
  else if buf.length ≤ off + 2 then none
  else
    some (3, (buf.getD off 0 &&& 0x7F) ||| ((buf.getD (off + 1) 0 &&& 0x7F) <<< 7)
             ||| (buf.getD (off + 2) 0 <<< 14))

/- ===================================================================
   Part 3.  Protocol state machine (qvncclient.cpp)
   =================================================================== -/

/-- Handshaking states of QVncClient::Private (the HandshakingState enum in
qvncclient.cpp). -/
inductive HandshakingState
  | ProtocolVersionState
  | SecurityState
  | SecurityResultState
  | VncAuthenticationState
  | ClientInitState
  | ServerInitState
  | WaitingState
deriving DecidableEq

/-- Modelled from the spec: the ProtocolVersion enumeration lives in the
public header qvncclient.h, which is not among the sources; the spec lists
the values 3.3, 3.7, 3.8 and Unknown. -/
inductive ProtocolVersion
  | ProtocolVersionUnknown
  | ProtocolVersion33
  | ProtocolVersion37
  | ProtocolVersion38
deriving DecidableEq

/-- Modelled from the spec: the SecurityType enumeration of the missing
public header, with Invalid = 0, None = 1, VncAuthentication = 2 and an
Unknown placeholder (spelled SecurityTypeUnknwon by qvncclient.cpp), plus a
catch-all for any other 32-bit value cast by parseSecurity33. -/
inductive SecurityType
  | SecurityTypeUnknwon
  | SecurityTypeInvalid
  | SecurityTypeNone
  | SecurityTypeVncAuthentication
  | SecurityTypeOther (value : Nat)
deriving DecidableEq

/-- Pixel format descriptor (struct PixelFormat in qvncclient.cpp); the
three padding bytes are omitted. -/
structure PixelFormat where
  bitsPerPixel : Nat := 0
  depth : Nat := 0
  bigEndianFlag : Nat := 0
  trueColourFlag : Nat := 0
  redMax : Nat := 0
  greenMax : Nat := 0
  blueMax : Nat := 0
  redShift : Nat := 0
  greenShift : Nat := 0
  blueShift : Nat := 0
deriving DecidableEq

/-- Rectangle header (struct Rectangle in qvncclient.cpp). -/
structure VRect where
  x : Nat := 0
  y : Nat := 0
  w : Nat := 0
  h : Nat := 0
deriving DecidableEq

/-- Framebuffer update progress state (the fbu struct in qvncclient.cpp). -/
structure FbuState where
  totalRects : Nat := 0
  currentRect : Nat := 0
  rect : VRect := {}
  encoding : Int := -1
  active : Bool := false
  rectHeaderRead : Bool := false
  hextileTY : Nat := 0
  hextileTX : Nat := 0
  hextileBG : Nat := 0
  hextileFG : Nat := 0
deriving DecidableEq

/-- Observable effects of the client: emitted Qt signals and socket writes.
Outbound messages whose exact serialization is irrelevant to the claims are
recorded structurally. -/
inductive Event
  | connectionStateChanged (connected : Bool)
  | protocolVersionChangedSignal (v : ProtocolVersion)
  | securityTypeChangedSignal (t : SecurityType)
  | passwordChangedSignal (p : List Nat)
  | framebufferSizeChanged (w h : Nat)
  | imageChangedSignal (x y w h : Nat)
  | passwordRequested
  | wrote (bytes : List Nat)
  | wroteSecuritySelection (t : SecurityType)
  | wroteSetPixelFormat (pf : PixelFormat)
  | wroteSetEncodings (encodings : List Nat)
  | wroteFramebufferUpdateRequest (incremental : Bool)
deriving DecidableEq

/-- State owned by QVncClient::Private that the modeled operations read or
write.  The QImage is modeled by its size (none is the null QImage); pixel
contents are modeled separately in the decoder sections.  The zlib streams
are modeled by their active flags.  inbuf is the buffered inbound byte
stream of the socket. -/
structure ClientState where
  hstate : HandshakingState := .ProtocolVersionState
  protocolVersion : ProtocolVersion := .ProtocolVersionUnknown
  securityType : SecurityType := .SecurityTypeUnknwon
  password : List Nat := []
  vncChallenge : List Nat := []
  pixelFormat : PixelFormat := {}
  frameBufferWidth : Nat := 0
  frameBufferHeight : Nat := 0
  imageAllocated : Option (Nat × Nat) := none
  zrleStreamActive : Bool := false
  tightStreamActive : List Bool := [false, false, false, false]
  fbu : FbuState := {}
  inbuf : List Nat := []
deriving DecidableEq

/-- Big-endian 16-bit read from the head of a byte list. -/
def readBe16 (l : List Nat) : Nat :=
  (l.getD 0 0 <<< 8) ||| l.getD 1 0

/-- Big-endian 32-bit read from the head of a byte list. -/
def readBe32 (l : List Nat) : Nat :=
  (l.getD 0 0 <<< 24) ||| (l.getD 1 0 <<< 16) ||| (l.getD 2 0 <<< 8) ||| l.getD 3 0

/-- Signed big-endian 32-bit read (qint32_be). -/
def readBe32i (l : List Nat) : Int :=
  let n := readBe32 l
  if n < 2147483648 then (n : Int) else (n : Int) - 4294967296

/-- Decode the 16-byte wire form of a PixelFormat. -/
def parsePixelFormat (l : List Nat) : PixelFormat :=
  { bitsPerPixel := l.getD 0 0
    depth := l.getD 1 0
    bigEndianFlag := l.getD 2 0
    trueColourFlag := l.getD 3 0
    redMax := readBe16 (l.drop 4)
    greenMax := readBe16 (l.drop 6)
    blueMax := readBe16 (l.drop 8)
    redShift := l.getD 10 0
    greenShift := l.getD 11 0
    blueShift := l.getD 12 0 }

/-- Byte form of the string RFB 003.003 with trailing newline. -/
def rfbVersion33Bytes : List Nat := [82, 70, 66, 32, 48, 48, 51, 46, 48, 48, 51, 10]

/-- Byte form of the string RFB 003.007 with trailing newline. -/
def rfbVersion37Bytes : List Nat := [82, 70, 66, 32, 48, 48, 51, 46, 48, 48, 55, 10]

/-- Byte form of the string RFB 003.008 with trailing newline. -/
def rfbVersion38Bytes : List Nat := [82, 70, 66, 32, 48, 48, 51, 46, 48, 48, 56, 10]

/-- Send ClientInit (clientInit in qvncclient.cpp): write the shared flag
byte and move to ServerInitState. -/
def clientInit (s : ClientState) : ClientState × List Event :=
  ({ s with hstate := .ServerInitState }, [.wrote [1]])

/-- Encrypt the stored challenge and send the response
(sendVncAuthResponse in qvncclient.cpp). -/
def sendVncAuthResponse (s : ClientState) : ClientState × List Event :=
  let response := vncEncryptChallenge s.password s.vncChallenge
  let s1 : ClientState := { s with vncChallenge := [] }
  match s1.protocolVersion with
  | .ProtocolVersion33 =>
    let r := clientInit { s1 with hstate := .ClientInitState }
    (r.1, .wrote response :: r.2)
  | .ProtocolVersion37 => ({ s1 with hstate := .SecurityResultState }, [.wrote response])
  | .ProtocolVersion38 => ({ s1 with hstate := .SecurityResultState }, [.wrote response])
  | _ => (s1, [.wrote response])

/-- Parse the 16-byte VNC authentication challenge
(parseVncAuthentication in qvncclient.cpp). -/
def parseVncAuthentication (s : ClientState) : ClientState × List Event :=
  if s.inbuf.length < 16 then (s, [])
  else
    let s1 : ClientState :=
      { s with vncChallenge := s.inbuf.take 16, inbuf := s.inbuf.drop 16 }
    if s1.password = [] then (s1, [.passwordRequested])
    else sendVncAuthResponse s1

/-- Read and log a security failure reason string
(parseSecurityReason in qvncclient.cpp). -/
def parseSecurityReason (s : ClientState) : ClientState × List Event :=
  if s.inbuf.length < 4 then (s, [])
  else
    let reasonLength := readBe32 s.inbuf
    let s1 : ClientState := { s with inbuf := s.inbuf.drop 4 }
    if s1.inbuf.length < reasonLength then (s1, [])
    else ({ s1 with inbuf := s1.inbuf.drop reasonLength }, [])

/-- Reaction to a change of the security type
(QVncClient::Private::securityTypeChanged in qvncclient.cpp). -/
def securityTypeChangedHandler (s : ClientState) (t : SecurityType) :
    ClientState × List Event :=
  match t with
  | .SecurityTypeUnknwon => (s, [])
  | .SecurityTypeInvalid => parseSecurityReason s
  | .SecurityTypeNone =>
    match s.protocolVersion with
    | .ProtocolVersion33 => clientInit { s with hstate := .ClientInitState }
    | .ProtocolVersion37 =>
      let r := clientInit { s with hstate := .ClientInitState }
      (r.1, .wroteSecuritySelection t :: r.2)
    | .ProtocolVersion38 =>
      ({ s with hstate := .SecurityResultState }, [.wroteSecuritySelection t])
    | .ProtocolVersionUnknown => (s, [])
  | .SecurityTypeVncAuthentication =>
    match s.protocolVersion with
    | .ProtocolVersion33 =>
      parseVncAuthentication { s with hstate := .VncAuthenticationState }
    | .ProtocolVersion37 =>
      ({ s with hstate := .VncAuthenticationState }, [.wroteSecuritySelection t])
    | .ProtocolVersion38 =>
      ({ s with hstate := .VncAuthenticationState }, [.wroteSecuritySelection t])
    | .ProtocolVersionUnknown => (s, [])
  | .SecurityTypeOther _ => (s, [])

/-- QVncClient::setSecurityType: a change detector that stores the value,
emits securityTypeChanged and lets the Private handler react; setting the
stored value again is a no-op. -/
def setSecurityType (s : ClientState) (t : SecurityType) : ClientState × List Event :=
  if s.securityType = t then (s, [])
  else
    let r := securityTypeChangedHandler { s with securityType := t } t
    (r.1, .securityTypeChangedSignal t :: r.2)

/-- Numeric value to SecurityType, as the static_cast in parseSecurity33. -/
def securityTypeOfNat (n : Nat) : SecurityType :=
  match n with
  | 0 => .SecurityTypeInvalid
  | 1 => .SecurityTypeNone
  | 2 => .SecurityTypeVncAuthentication
  | v + 3 => .SecurityTypeOther (v + 3)

/-- Parse the RFB 3.3 security word (parseSecurity33 in qvncclient.cpp). -/
def parseSecurity33 (s : ClientState) : ClientState × List Event :=
  if s.inbuf.length < 4 then (s, [])
  else
    let data := readBe32 s.inbuf
    setSecurityType { s with inbuf := s.inbuf.drop 4 } (securityTypeOfNat data)

/-- Parse the RFB 3.7/3.8 security list (parseSecurity37 in
qvncclient.cpp).  Note that the count byte is consumed by read before the
availability of the count-many type bytes is checked. -/
def parseSecurity37 (s : ClientState) : ClientState × List Event :=
  if s.inbuf.length < 1 then (s, [])
  else
    let numberOfSecurityTypes := s.inbuf.getD 0 0
    let s1 : ClientState := { s with inbuf := s.inbuf.drop 1 }
    if numberOfSecurityTypes = 0 then parseSecurityReason s1
    else if s1.inbuf.length < numberOfSecurityTypes then (s1, [])
    else
      let securityTypes := s1.inbuf.take numberOfSecurityTypes
      let s2 : ClientState := { s1 with inbuf := s1.inbuf.drop numberOfSecurityTypes }
      if securityTypes.contains 2 then setSecurityType s2 .SecurityTypeVncAuthentication
      else if securityTypes.contains 1 then setSecurityType s2 .SecurityTypeNone
      else setSecurityType s2 .SecurityTypeInvalid

/-- Reaction to a change of the protocol version
(QVncClient::Private::protocolVersionChanged in qvncclient.cpp): echo the
version and move to SecurityState. -/
def protocolVersionChangedHandler (s : ClientState) (v : ProtocolVersion) :
    ClientState × List Event :=
  match v with
  | .ProtocolVersion33 => ({ s with hstate := .SecurityState }, [.wrote rfbVersion33Bytes])
  | .ProtocolVersion37 => ({ s with hstate := .SecurityState }, [.wrote rfbVersion37Bytes])
  | .ProtocolVersion38 => ({ s with hstate := .SecurityState }, [.wrote rfbVersion38Bytes])
  | .ProtocolVersionUnknown => (s, [])

/-- QVncClient::setProtocolVersion: change detector storing the value and
emitting protocolVersionChanged; setting the stored value again is a no-op. -/
def setProtocolVersion (s : ClientState) (v : ProtocolVersion) : ClientState × List Event :=
  if s.protocolVersion = v then (s, [])
  else
    let r := protocolVersionChangedHandler { s with protocolVersion := v } v
    (r.1, .protocolVersionChangedSignal v :: r.2)

/-- Parse the 12-byte protocol version banner
(parseProtocolVersion in qvncclient.cpp). -/
def parseProtocolVersion (s : ClientState) : ClientState × List Event :=
  if s.inbuf.length < 12 then (s, [])
  else
    let value := s.inbuf.take 12
    let s1 : ClientState := { s with inbuf := s.inbuf.drop 12 }
    if value = rfbVersion33Bytes then setProtocolVersion s1 .ProtocolVersion33
    else if value = rfbVersion37Bytes then setProtocolVersion s1 .ProtocolVersion37
    else if value = rfbVersion38Bytes then setProtocolVersion s1 .ProtocolVersion38
    else (s1, [])

/-- Reaction to passwordChanged (the lambda connected to passwordChanged in
the Private constructor): a deferred challenge is answered once a non-empty
password arrives while in VncAuthenticationState. -/
def passwordChangedHandler (s : ClientState) : ClientState × List Event :=
  if s.hstate = .VncAuthenticationState ∧ s.vncChallenge ≠ [] ∧ s.password ≠ [] then
    sendVncAuthResponse s
  else (s, [])

/-- QVncClient::setPassword: change detector storing the password and
emitting passwordChanged; setting the stored value again is a no-op. -/
def setPassword (s : ClientState) (p : List Nat) : ClientState × List Event :=
  if s.password = p then (s, [])
  else
    let r := passwordChangedHandler { s with password := p }
    (r.1, .passwordChangedSignal p :: r.2)

/-- Parse the SecurityResult word (parseSecurityResult in qvncclient.cpp). -/
def parseSecurityResult (s : ClientState) : ClientState × List Event :=
  if s.inbuf.length < 4 then (s, [])
  else
    let result := readBe32 s.inbuf
    let s1 : ClientState := { s with inbuf := s.inbuf.drop 4 }
    if result = 0 then clientInit { s1 with hstate := .ClientInitState }
    else if s1.protocolVersion = .ProtocolVersion38 then parseSecurityReason s1
    else (s1, [])

/-- Parse the ServerInit message (parserServerInit in qvncclient.cpp).
The fixed 24-byte part is consumed, the framebuffer is allocated and the
size signal is emitted before the availability of the variable-length
server name is checked. -/
def parserServerInit (s : ClientState) : ClientState × List Event :=
  if s.inbuf.length < 2 + 2 + 16 + 4 then (s, [])
  else
    let w := readBe16 s.inbuf
    let h := readBe16 (s.inbuf.drop 2)
    let s1 : ClientState :=
      { s with inbuf := s.inbuf.drop 4, frameBufferWidth := w, frameBufferHeight := h,
               imageAllocated := some (w, h) }
    let pf := parsePixelFormat (s1.inbuf.take 16)
    let s2 : ClientState := { s1 with pixelFormat := pf, inbuf := s1.inbuf.drop 16 }
    let nameLength := readBe32 s2.inbuf
    let s3 : ClientState := { s2 with inbuf := s2.inbuf.drop 4 }
    if s3.inbuf.length < nameLength then (s3, [.framebufferSizeChanged w h])
    else
      let s4 : ClientState :=
        { s3 with inbuf := s3.inbuf.drop nameLength, hstate := .WaitingState }
      (s4, [.framebufferSizeChanged w h, .wroteSetPixelFormat pf,
            .wroteSetEncodings [7, 16, 5, 0], .wroteFramebufferUpdateRequest false])

/-- Full client reset on disconnect (QVncClient::Private::reset in
qvncclient.cpp).  Note that only the ZRLE zlib stream is ended; the four
Tight streams are left untouched. -/
def reset (s : ClientState) : ClientState × List Event :=
  let s1 : ClientState := { s with hstate := .ProtocolVersionState }
  let r1 := setProtocolVersion s1 .ProtocolVersionUnknown
  let r2 := setSecurityType r1.1 .SecurityTypeUnknwon
  let s2 : ClientState :=
    { r2.1 with vncChallenge := [], fbu := { r2.1.fbu with active := false },
                frameBufferWidth := 0, frameBufferHeight := 0, imageAllocated := none }
  let s3 : ClientState :=
    if s2.zrleStreamActive then { s2 with zrleStreamActive := false } else s2
  (s3, r1.2 ++ r2.2 ++ [.framebufferSizeChanged 0 0])

/-- Reaction to the disconnected signal of the socket (the lambda connected
to QTcpSocket::disconnected): emit connected = false and reset. -/
def onDisconnected (s : ClientState) : ClientState × List Event :=
  let r := reset s
  (r.1, .connectionStateChanged false :: r.2)

/-- A concrete mid-session client state with every persistent decoder
resource live (ZRLE stream active, all four Tight streams active, image
allocated, challenge pending), used to exercise onDisconnected. -/
def liveSessionState : ClientState :=
  { hstate := .WaitingState, protocolVersion := .ProtocolVersion38,
    securityType := .SecurityTypeVncAuthentication, password := [7],
    vncChallenge := [1, 2, 3], frameBufferWidth := 8, frameBufferHeight := 6,
    imageAllocated := some (8, 6), zrleStreamActive := true,
    tightStreamActive := [true, true, true, true],
    fbu := { totalRects := 3, currentRect := 1, active := true }, inbuf := [5] }

/-- Begin parsing a FramebufferUpdate message
(framebufferUpdate in qvncclient.cpp): padding byte plus big-endian
rectangle count; initializes the progress cursor.  The Hextile color
state is left untouched. -/
def framebufferUpdateBegin (fbu : FbuState) (buf : List Nat) :
    Option (FbuState × List Nat) :=
  if buf.length < 3 then none
  else
    some ({ fbu with totalRects := readBe16 (buf.drop 1), currentRect := 0,
                     active := true, rectHeaderRead := false }, buf.drop 3)

/-- Read one 12-byte rectangle header inside processFramebufferRects in
qvncclient.cpp: stores the rectangle and encoding and resets the Hextile
tile cursor, leaving the inherited Hextile colors untouched. -/
def readRectHeader (fbu : FbuState) (buf : List Nat) :
    Option (FbuState × List Nat) :=
  if buf.length < 12 then none
  else
    some ({ fbu with
              rect := { x := readBe16 buf, y := readBe16 (buf.drop 2),
                        w := readBe16 (buf.drop 4), h := readBe16 (buf.drop 6) },
              encoding := readBe32i (buf.drop 8),
              rectHeaderRead := true, hextileTX := 0, hextileTY := 0 }, buf.drop 12)

/-- Concrete client state with a buffered challenge awaiting a password,
used to witness the setter idempotence claim. -/
def pendingChallengeState : ClientState :=
  { hstate := .VncAuthenticationState, protocolVersion := .ProtocolVersion38,
    securityType := .SecurityTypeVncAuthentication, password := [7],
    vncChallenge := List.replicate 16 0 }

/- ===================================================================
   Part 4.  Tight decoder, transactional layer (handleTightEncoding)
   =================================================================== -/

/-- Zlib stream interactions performed by handleTightEncoding: ending a
stream (inflateEnd), initializing it (inflateInit), and feeding it
compressed bytes (inflate).  zlib itself is an external library; these
events are the interface the code has with it. -/
inductive ZEvent
  | zend (streamId : Nat)
  | zinit (streamId : Nat)
  | zfeed (streamId : Nat) (data : List Nat)
deriving DecidableEq

/-- Result of one handleTightEncoding invocation: whether it returned true,
how many bytes it consumed from the socket, the new active flags of the
four Tight zlib streams, and the stream interactions it performed. -/
structure TightResult where
  complete : Bool
  consumed : Nat
  streams : List Bool
  events : List ZEvent
deriving DecidableEq

/-- TPIXEL size rule of handleTightEncoding: 3 bytes when bpp = 32,
true color and all channel maxima equal 255, else bpp / 8. -/
def tpixelSizeOf (pf : PixelFormat) : Nat :=
  if pf.bitsPerPixel = 32 ∧ pf.trueColourFlag ≠ 0 ∧ pf.redMax = 255
      ∧ pf.greenMax = 255 ∧ pf.blueMax = 255 then 3
  else pf.bitsPerPixel / 8

/-- Body of the stream-reset loop at the top of handleTightEncoding: if
bit i of the control byte is set and stream i is active, the stream is
ended and deactivated. -/
def resetStep (compControl : Nat) (st : List Bool × List ZEvent) (i : Nat) :
    List Bool × List ZEvent :=
  if compControl &&& (1 <<< i) ≠ 0 ∧ st.1.getD i false = true then
    (st.1.set i false, st.2 ++ [ZEvent.zend i])
  else st

/-- Stream-reset loop at the top of handleTightEncoding: resetStep for
i in 0..3. -/
def applyResetFlags (compControl : Nat) (streams : List Bool) :
    List Bool × List ZEvent :=
  (List.range 4).foldl (resetStep compControl) (streams, [])

/-- Peek phase of handleTightEncoding in qvncclient.cpp: the exact chain of
early-return checks computing the total byte length of the Tight record for
one rectangle from the peeked buffer, before anything is consumed.  Returns
none whenever the C code returns false from a check preceding the reads
(peek too short, compact length unreadable, or fewer than totalNeeded bytes
buffered); otherwise some totalNeeded. -/
def tightRecordLength (pf : PixelFormat) (r : VRect) (buf : List Nat) : Option Nat :=
  if buf.length < 1 then none
  else
    let tpixelSize := tpixelSizeOf pf
    let peek := buf.take (min buf.length (1 + 1 + 1 + 256 * tpixelSize + 3))
    let compType := buf.getD 0 0 >>> 4
    if compType = 8 then
      if buf.length < 1 + tpixelSize then none else some (1 + tpixelSize)
    else if compType = 9 then
      match parseCompactLength peek 1 with
      | none => none
      | some (lenBytes, dataLength) =>
        if buf.length < 1 + lenBytes + dataLength then none
        else some (1 + lenBytes + dataLength)
    else
      let hasFilter := compType &&& 0x04 ≠ 0
      if hasFilter ∧ peek.length ≤ 1 then none
      else
        let filterId := if hasFilter then peek.getD 1 0 else 0
        let off1 := if hasFilter then 2 else 1
        if filterId = 1 ∧ peek.length ≤ off1 then none
        else
          let numColors := if filterId = 1 then peek.getD off1 0 + 1 else 0
          let off2 := if filterId = 1 then off1 + 1 else off1
          let paletteDataBytes := if filterId = 1 then numColors * tpixelSize else 0
          if filterId = 1 ∧ peek.length < off2 + paletteDataBytes then none
          else
            let off3 := off2 + paletteDataBytes
            let dataSize := if filterId = 1 then
                (if numColors ≤ 2 then ((r.w + 7) / 8) * r.h else r.w * r.h)
              else r.w * r.h * tpixelSize
            if dataSize < 12 then
              if buf.length < off3 + dataSize then none else some (off3 + dataSize)
            else
              match parseCompactLength peek off3 with
              | none => none
              | some (lenBytes, compressedLength) =>
                if buf.length < off3 + lenBytes + compressedLength then none
                else some (off3 + lenBytes + compressedLength)

/-- Which zlib stream the consuming invocation feeds, and with which
compressed bytes: only the Basic path with an uncompressed size of at least
12 bytes uses a stream (Fill and JPEG never do, and small Basic payloads
are sent raw).  Follows the same check chain as tightRecordLength. -/
def tightStreamUse (pf : PixelFormat) (r : VRect) (buf : List Nat) :
    Option (Nat × List Nat) :=
  if buf.length < 1 then none
  else
    let tpixelSize := tpixelSizeOf pf
    let peek := buf.take (min buf.length (1 + 1 + 1 + 256 * tpixelSize + 3))
    let compType := buf.getD 0 0 >>> 4
    if compType = 8 then none
    else if compType = 9 then none
    else
      let streamId := compType &&& 0x03
      let hasFilter := compType &&& 0x04 ≠ 0
      if hasFilter ∧ peek.length ≤ 1 then none
      else
        let filterId := if hasFilter then peek.getD 1 0 else 0
        let off1 := if hasFilter then 2 else 1
        if filterId = 1 ∧ peek.length ≤ off1 then none
        else
          let numColors := if filterId = 1 then peek.getD off1 0 + 1 else 0
          let off2 := if filterId = 1 then off1 + 1 else off1
          let paletteDataBytes := if filterId = 1 then numColors * tpixelSize else 0
          if filterId = 1 ∧ peek.length < off2 + paletteDataBytes then none
          else
            let off3 := off2 + paletteDataBytes
            let dataSize := if filterId = 1 then
                (if numColors ≤ 2 then ((r.w + 7) / 8) * r.h else r.w * r.h)
              else r.w * r.h * tpixelSize
            if dataSize < 12 then none
            else
              match parseCompactLength peek off3 with
              | none => none
              | some (lenBytes, compressedLength) =>
                if buf.length < off3 + lenBytes + compressedLength then none
                else some (streamId, (buf.drop (off3 + lenBytes)).take compressedLength)

/-- Transactional layer of handleTightEncoding in qvncclient.cpp, put
together from its two phases: first the stream-reset flags of the peeked
control byte are applied, then the record length is computed from the peek;
if the record is not fully buffered the call returns incomplete having
consumed nothing, otherwise it consumes the record, initializing the used
zlib stream if it was inactive and feeding it the compressed bytes.  Pixel
decoding affects neither consumption nor the streams and is modeled with
the other encodings. -/
def handleTightEncoding (pf : PixelFormat) (r : VRect) (streams : List Bool)
    (buf : List Nat) : TightResult :=
  if buf.length < 1 then ⟨false, 0, streams, []⟩
  else
    let sr := applyResetFlags (buf.getD 0 0) streams
    match tightRecordLength pf r buf with
    | none => ⟨false, 0, sr.1, sr.2⟩
    | some totalNeeded =>
      match tightStreamUse pf r buf with
      | none => ⟨true, totalNeeded, sr.1, sr.2⟩
      | some (streamId, compressedData) =>
        if sr.1.getD streamId false = true then
          ⟨true, totalNeeded, sr.1, sr.2 ++ [ZEvent.zfeed streamId compressedData]⟩
        else
          ⟨true, totalNeeded, sr.1.set streamId true,
           sr.2 ++ [ZEvent.zinit streamId, ZEvent.zfeed streamId compressedData]⟩

/-- The 32-bpp true-color little-endian pixel format with 8-bit channels
and shifts 16/8/0 that the decoders of qvncclient.cpp fully support. -/
def pf32 : PixelFormat :=
  { bitsPerPixel := 32, depth := 24, bigEndianFlag := 0, trueColourFlag := 1,
    redMax := 255, greenMax := 255, blueMax := 255,
    redShift := 16, greenShift := 8, blueShift := 0 }

/- ===================================================================
   Part 5.  Framebuffer image and the Hextile decoder
   =================================================================== -/

/-- The framebuffer pixel grid, as a total function from coordinates to the
QRgb value stored there. -/
def FbImage : Type := Nat → Nat → Nat

/-- The qRgb packing of Qt: alpha 255 and 8 bits per channel. -/
def qRgb (r g b : Nat) : Nat :=
  0xFF000000 ||| ((r &&& 0xFF) <<< 16) ||| ((g &&& 0xFF) <<< 8) ||| (b &&& 0xFF)

/-- QImage::setPixel as a functional update. -/
def setPixel (img : FbImage) (x y c : Nat) : FbImage :=
  fun a b => if a = x ∧ b = y then c else img a b

/-- Channel extraction used by every decoder in qvncclient.cpp: shift by
the channel shift, mask with the channel max, pack with qRgb. -/
def rgbFromPixel (pf : PixelFormat) (color : Nat) : Nat :=
  qRgb ((color >>> pf.redShift) &&& pf.redMax)
       ((color >>> pf.greenShift) &&& pf.greenMax)
       ((color >>> pf.blueShift) &&& pf.blueMax)

/-- Little-endian 32-bit read from the head of a byte list (quint32_le). -/
def readLe32 (buf : List Nat) : Nat :=
  buf.getD 0 0 ||| (buf.getD 1 0 <<< 8) ||| (buf.getD 2 0 <<< 16) ||| (buf.getD 3 0 <<< 24)

/-- Row-major double loop painting a tw-by-th region with one color, the
shape of the background fill in handleHextileEncoding and of the solid
fills in the other decoders. -/
def fillRegion (img : FbImage) (x0 y0 tw th c : Nat) : FbImage :=
  (List.range th).foldl (fun im y =>
    (List.range tw).foldl (fun im2 x => setPixel im2 (x0 + x) (y0 + y) c) im) img

/-- Raw Hextile tile: tw times th pixels read from the socket; the C code
reads and paints only in the 32-bpp case. -/
def hextileRawTile (pf : PixelFormat) (x0 y0 tw th : Nat) (img : FbImage)
    (buf : List Nat) : FbImage × List Nat :=
  (List.range th).foldl (fun st y =>
    (List.range tw).foldl (fun st2 x =>
      if pf.bitsPerPixel / 8 = 4 then
        (setPixel st2.1 (x0 + x) (y0 + y) (rgbFromPixel pf (readLe32 st2.2)),
         st2.2.drop 4)
      else st2) st) (img, buf)

/-- Subrectangle loop of handleHextileEncoding: n subrects, each an
optional color (when SubrectsColoured) plus packed xy and wh bytes,
painted clipped to the tile. -/
def hextileSubrects (pf : PixelFormat) (sub : Nat) (rx ry tx ty tw th fg n : Nat)
    (img : FbImage) (buf : List Nat) : FbImage × List Nat :=
  (List.range n).foldl (fun st _i =>
    let cr := if sub &&& 16 ≠ 0 ∧ pf.bitsPerPixel / 8 = 4
      then (readLe32 st.2, st.2.drop 4) else (fg, st.2)
    let xy := cr.2.getD 0 0
    let wh := cr.2.getD 1 0
    let buf2 := cr.2.drop 2
    let sx := (xy >>> 4) &&& 0xF
    let sy := xy &&& 0xF
    let sw := ((wh >>> 4) &&& 0xF) + 1
    let sh := (wh &&& 0xF) + 1
    let img2 := (List.range sh).foldl (fun im y =>
      (List.range sw).foldl (fun im2 x =>
        if sy + y < th ∧ sx + x < tw then
          setPixel im2 (rx + tx + sx + x) (ry + ty + sy + y) (rgbFromPixel pf cr.1)
        else im2) im) img
    (img2, buf2)) (img, buf)

/-- Tile length computation of handleHextileEncoding: the exact byte count
of the tile at (tx, ty), computed from the peeked subencoding byte before
anything is consumed; none when the peek is too short to hold the subrect
count. -/
def hexTileBytes (pf : PixelFormat) (r : VRect) (ty tx : Nat) (buf : List Nat) :
    Option Nat :=
  let bpp := pf.bitsPerPixel / 8
  let th := min 16 (r.h - ty)
  let tw := min 16 (r.w - tx)
  let peek := buf.take (min buf.length 2048)
  let subencoding := buf.getD 0 0
  if subencoding &&& 1 ≠ 0 then some (1 + tw * th * bpp)
  else
    let tb1 := 1 + (if subencoding &&& 2 ≠ 0 then bpp else 0)
    if subencoding &&& 8 ≠ 0 then
      let tb2 := tb1 + (if subencoding &&& 4 ≠ 0 then bpp else 0) + 1
      if peek.length < tb2 then none
      else
        let numSubrects := peek.getD (tb2 - 1) 0
        let subrectSize := if subencoding &&& 16 ≠ 0 then bpp + 2 else 2
        some (tb2 + numSubrects * subrectSize)
    else some tb1

/-- One Hextile tile of handleHextileEncoding: none when the complete tile
is not buffered (nothing consumed), otherwise the updated background and
foreground colors, image and remaining buffer.  The subencoding byte is
the head of the buffer (equal to peek.at(0)). -/
def hexTile (pf : PixelFormat) (r : VRect) (ty tx bg fg : Nat) (img : FbImage)
    (buf : List Nat) : Option (Nat × Nat × FbImage × List Nat) :=
  let bpp := pf.bitsPerPixel / 8
  let th := min 16 (r.h - ty)
  let tw := min 16 (r.w - tx)
  if buf.length < 1 then none
  else
    match hexTileBytes pf r ty tx buf with
    | none => none
    | some tileBytes =>
      if buf.length < tileBytes then none
      else
        let sub := buf.getD 0 0
        let buf1 := buf.drop 1
        if sub &&& 1 ≠ 0 then
          let rt := hextileRawTile pf (r.x + tx) (r.y + ty) tw th img buf1
          some (bg, fg, rt.1, rt.2)
        else
          let br := if sub &&& 2 ≠ 0 ∧ bpp = 4 then (readLe32 buf1, buf1.drop 4)
            else (bg, buf1)
          let img2 := fillRegion img (r.x + tx) (r.y + ty) tw th (rgbFromPixel pf br.1)
          if sub &&& 8 ≠ 0 then
            let fr := if sub &&& 4 ≠ 0 ∧ bpp = 4 then (readLe32 br.2, br.2.drop 4)
              else (fg, br.2)
            let numSubrects := fr.2.getD 0 0
            let sr := hextileSubrects pf sub r.x r.y tx ty tw th fr.1 numSubrects
              img2 (fr.2.drop 1)
            some (br.1, fr.1, sr.1, sr.2)
          else some (br.1, fg, img2, br.2)

/-- Result of handleHextileEncoding: the returned bool, the resume cursor
and inherited colors, the image and the remaining buffer. -/
structure HexResult where
  ok : Bool
  hextileTY : Nat
  hextileTX : Nat
  bg : Nat
  fg : Nat
  img : FbImage
  buf : List Nat

/-- Tile loop of handleHextileEncoding: processes 16-by-16 tiles row-major
starting from the resume cursor (ty, tx); an incomplete tile stops the
loop with the cursor parked on that tile; after each completed row the
column cursor returns to 0, and on completion both cursors are 0. -/
def hexProcess (pf : PixelFormat) (r : VRect) (ty tx bg fg : Nat) (img : FbImage)
    (buf : List Nat) : HexResult :=
  if ty < r.h then
    if tx < r.w then
      match hexTile pf r ty tx bg fg img buf with
      | none => ⟨false, ty, tx, bg, fg, img, buf⟩
      | some (bg2, fg2, img2, buf2) => hexProcess pf r ty (tx + 16) bg2 fg2 img2 buf2
    else hexProcess pf r (ty + 16) 0 bg fg img buf
  else ⟨true, 0, 0, bg, fg, img, buf⟩
termination_by (r.h - ty, r.w - tx)
decreasing_by
  · apply Prod.Lex.right
    omega
  · apply Prod.Lex.left
    omega

/-- handleHextileEncoding in qvncclient.cpp, as a function of the fbu
resume state, the image and the buffer. -/
def handleHextileEncoding (pf : PixelFormat) (r : VRect) (fbu : FbuState)
    (img : FbImage) (buf : List Nat) : Bool × FbuState × FbImage × List Nat :=
  let res := hexProcess pf r fbu.hextileTY fbu.hextileTX fbu.hextileBG fbu.hextileFG img buf
  (res.ok,
   { fbu with hextileTY := res.hextileTY, hextileTX := res.hextileTX,
              hextileBG := res.bg, hextileFG := res.fg },
   res.img, res.buf)

/- ===================================================================
   Part 6.  ZRLE decoder (handleZRLEEncoding, decompressed-data stage)
   =================================================================== -/

/-- CPIXEL size rule of handleZRLEEncoding: 3 bytes when bpp = 32, true
color and all channel maxima at most 255, else bpp / 8. -/
def cpixelSizeOf (pf : PixelFormat) : Nat :=
  if pf.bitsPerPixel = 32 ∧ pf.trueColourFlag ≠ 0 ∧ pf.redMax ≤ 255
      ∧ pf.greenMax ≤ 255 ∧ pf.blueMax ≤ 255 then 3
  else pf.bitsPerPixel / 8

/-- The readCPixel lambda of handleZRLEEncoding: reads one CPIXEL from the
decompressed buffer at the given offset; past the end it yields color 0
without advancing. -/
def readCPixel (pf : PixelFormat) (data : List Nat) (off : Nat) : Nat × Nat :=
  let cpixelSize := cpixelSizeOf pf
  if data.length < off + cpixelSize then (0, off)
  else
    let color :=
      if cpixelSize = 3 then
        if pf.bigEndianFlag ≠ 0 then
          (data.getD off 0 <<< 16) ||| (data.getD (off + 1) 0 <<< 8) ||| data.getD (off + 2) 0
        else
          data.getD off 0 ||| (data.getD (off + 1) 0 <<< 8) ||| (data.getD (off + 2) 0 <<< 16)
      else if cpixelSize = 4 then readLe32 (data.drop off)
      else if cpixelSize = 2 then data.getD off 0 ||| (data.getD (off + 1) 0 <<< 8)
      else data.getD off 0
    (color, off + cpixelSize)

/-- The zero-prolongable run-length loop of handleZRLEEncoding: sums bytes
while they equal 255, stopping at the end of the buffer; returns the sum
(before the final + 1 of the caller) and the new offset. -/
def zrleRunLength (data : List Nat) (off : Nat) : Nat × Nat :=
  if off < data.length then
    let b := data.getD off 0
    if b = 255 then
      let r := zrleRunLength data (off + 1)
      (255 + r.1, r.2)
    else (b, off + 1)
  else (0, off)
termination_by data.length - off

/-- Raw ZRLE tile (subencoding 0): tw times th CPIXELs. -/
def zrleRawTile (pf : PixelFormat) (data : List Nat) (rx ry tw th off : Nat)
    (img : FbImage) : FbImage × Nat :=
  (List.range th).foldl (fun st y =>
    (List.range tw).foldl (fun st2 x =>
      let c := readCPixel pf data st2.2
      (setPixel st2.1 (rx + x) (ry + y) (rgbFromPixel pf c.1), c.2)) st) (img, off)

/-- Palette read loop of handleZRLEEncoding: n CPIXELs converted to QRgb. -/
def zrleReadPalette (pf : PixelFormat) (data : List Nat) (n off : Nat) :
    List Nat × Nat :=
  (List.range n).foldl (fun st _i =>
    let c := readCPixel pf data st.2
    (st.1 ++ [rgbFromPixel pf c.1], c.2)) ([], off)

/-- Packed-palette tile of handleZRLEEncoding (subencodings 2..16):
bit-packed indices, each row padded to a byte boundary; an out-of-buffer
index byte stops the row, an index at or past the palette size paints
nothing. -/
def zrlePackedPalette (pf : PixelFormat) (data : List Nat) (rx ry tw th : Nat)
    (palette : List Nat) (paletteSize off : Nat) (img : FbImage) : FbImage × Nat :=
  let bitsPerIndex := if paletteSize = 2 then 1 else if paletteSize ≤ 4 then 2 else 4
  let bytesPerRow := (tw * bitsPerIndex + 7) / 8
  (List.range th).foldl (fun st y =>
    let img2 := (List.range tw).foldl (fun im x =>
      let bitPos := x * bitsPerIndex
      let byteIdx := st.2 + bitPos / 8
      if byteIdx < data.length then
        let shift := 8 - bitsPerIndex - bitPos % 8
        let mask := (1 <<< bitsPerIndex) - 1
        let index := (data.getD byteIdx 0 >>> shift) &&& mask
        if index < paletteSize then setPixel im (rx + x) (ry + y) (palette.getD index 0)
        else im
      else im) st.1
    (img2, st.2 + bytesPerRow)) (img, off)

/-- Plain-RLE tile of handleZRLEEncoding (subencoding 128): repeated
(CPIXEL, zero-prolongable run) pairs until the tile is full. -/
def zrlePlainRle (pf : PixelFormat) (data : List Nat) (rx ry tw th : Nat)
    (pixels off : Nat) (img : FbImage) : FbImage × Nat :=
  if pixels < tw * th then
    let c := readCPixel pf data off
    let rl := zrleRunLength data c.2
    let rgb := rgbFromPixel pf c.1
    let paintCount := min (rl.1 + 1) (tw * th - pixels)
    let img2 := (List.range paintCount).foldl (fun im i =>
      setPixel im (rx + (pixels + i) % tw) (ry + (pixels + i) / tw) rgb) img
    zrlePlainRle pf data rx ry tw th (pixels + paintCount) rl.2 img2
  else (img, off)
termination_by tw * th - pixels
decreasing_by
  simp_wf
  omega

/-- Palette-RLE tile of handleZRLEEncoding (subencodings 130..255): an
index byte with the high bit set starts a run of the palette color at its
low 7 bits, otherwise it paints a single pixel; an index at or past the
palette size paints black qRgb(0,0,0); the loop stops when the
decompressed data runs out. -/
def zrlePaletteRle (pf : PixelFormat) (data : List Nat) (rx ry tw th : Nat)
    (palette : List Nat) (paletteSize : Nat) (pixels off : Nat) (img : FbImage) :
    FbImage × Nat :=
  if pixels < tw * th then
    if off < data.length then
      let indexByte := data.getD off 0
      if indexByte &&& 0x80 ≠ 0 then
        let paletteIndex := indexByte &&& 0x7F
        let rl := zrleRunLength data (off + 1)
        let rgb := if paletteIndex < paletteSize then palette.getD paletteIndex 0
          else qRgb 0 0 0
        let paintCount := min (rl.1 + 1) (tw * th - pixels)
        let img2 := (List.range paintCount).foldl (fun im i =>
          setPixel im (rx + (pixels + i) % tw) (ry + (pixels + i) / tw) rgb) img
        zrlePaletteRle pf data rx ry tw th palette paletteSize (pixels + paintCount)
          rl.2 img2
      else
        let rgb := if indexByte < paletteSize then palette.getD indexByte 0
          else qRgb 0 0 0
        let img2 := setPixel img (rx + pixels % tw) (ry + pixels / tw) rgb
        zrlePaletteRle pf data rx ry tw th palette paletteSize (pixels + 1)
          (off + 1) img2
    else (img, off)
  else (img, off)
termination_by tw * th - pixels
decreasing_by
  · simp_wf
    omega
  · simp_wf
    omega

/-- Result of the decompressed-data stage of handleZRLEEncoding: the bool
the handler returns, the image, and whether the truncation warning was
logged. -/
structure ZrleResult where
  ok : Bool
  img : FbImage
  truncated : Bool

/-- Tile loop of the decompressed-data stage of handleZRLEEncoding: 64 by
64 tiles row-major, each dispatched on its subencoding byte; when the
decompressed stream ends before the next tile it stops with a warning and
still reports success; reserved subencodings (17..127, 129) skip the
tile. -/
def zrleTiles (pf : PixelFormat) (r : VRect) (ty tx off : Nat) (data : List Nat)
    (img : FbImage) : ZrleResult :=
  if ty < r.h then
    if tx < r.w then
      let th := min 64 (r.h - ty)
      let tw := min 64 (r.w - tx)
      if data.length ≤ off then ⟨true, img, true⟩
      else
        let subencoding := data.getD off 0
        if subencoding = 0 then
          let rt := zrleRawTile pf data (r.x + tx) (r.y + ty) tw th (off + 1) img
          zrleTiles pf r ty (tx + 64) rt.2 data rt.1
        else if subencoding = 1 then
          let c := readCPixel pf data (off + 1)
          let img2 := fillRegion img (r.x + tx) (r.y + ty) tw th (rgbFromPixel pf c.1)
          zrleTiles pf r ty (tx + 64) c.2 data img2
        else if 2 ≤ subencoding ∧ subencoding ≤ 16 then
          let pal := zrleReadPalette pf data subencoding (off + 1)
          let pp := zrlePackedPalette pf data (r.x + tx) (r.y + ty) tw th pal.1
            subencoding pal.2 img
          zrleTiles pf r ty (tx + 64) pp.2 data pp.1
        else if subencoding = 128 then
          let pr := zrlePlainRle pf data (r.x + tx) (r.y + ty) tw th 0 (off + 1) img
          zrleTiles pf r ty (tx + 64) pr.2 data pr.1
        else if 130 ≤ subencoding then
          let pal := zrleReadPalette pf data (subencoding - 128) (off + 1)
          let pr := zrlePaletteRle pf data (r.x + tx) (r.y + ty) tw th pal.1
            (subencoding - 128) 0 pal.2 img
          zrleTiles pf r ty (tx + 64) pr.2 data pr.1
        else
          zrleTiles pf r ty (tx + 64) (off + 1) data img
    else zrleTiles pf r (ty + 64) 0 off data img
  else ⟨true, img, false⟩
termination_by (r.h - ty, r.w - tx)
decreasing_by
  all_goals first
    | (apply Prod.Lex.right; omega)
    | (apply Prod.Lex.left; omega)

/-- Decompressed-data stage of handleZRLEEncoding, starting at the first
tile and offset 0 of the decompressed buffer. -/
def zrleDecodeTiles (pf : PixelFormat) (r : VRect) (data : List Nat)
    (img : FbImage) : ZrleResult :=
  zrleTiles pf r 0 0 0 data img

/- ===================================================================
   Theorems
   =================================================================== -/

/-- Helper: a fold whose step preserves list length preserves it overall. -/
theorem foldl_length_invariant {α : Type} (l : List α) (f : List Nat → α → List Nat)
    (init : List Nat) (h : ∀ acc a, (f acc a).length = acc.length) :
    (l.foldl f init).length = init.length := by
  induction l generalizing init with
  | nil => rfl
  | cons x xs ih => simp only [List.foldl_cons]; rw [ih, h]

/-- Helper: desSetBit preserves the length of the byte array. -/
theorem desSetBit_length (d : List Nat) (p v : Nat) :
    (desSetBit d p v).length = d.length := by
  unfold desSetBit
  split <;> simp

/-- Helper: desEncryptBlock always produces an 8-byte block. -/
theorem desEncryptBlock_length (key input : List Nat) :
    (desEncryptBlock key input).length = 8 := by
  unfold desEncryptBlock
  rw [foldl_length_invariant]
  · simp
  · intro acc a
    split <;> simp [desSetBit_length]

/-- Helper: getD after a set, for any element type and default. -/
theorem getD_set_any {α : Type} (l : List α) (i j : Nat) (a d : α) :
    (l.set i a).getD j d = if i = j ∧ j < l.length then a else l.getD j d := by
  simp only [List.getD_eq_getElem?_getD, List.getElem?_set]
  rcases Decidable.em (i = j) with h | h
  · subst h
    by_cases h2 : i < l.length <;> simp [h2, List.getElem?_eq_none, Nat.le_of_not_lt]
  · simp [h]

/-- Helper: element characterization of a fold that stores v i at index i
for i below n. -/
theorem range_foldl_set_getD (n : Nat) (v : Nat → Nat) (init : List Nat) (j : Nat) :
    ((List.range n).foldl (fun k i => k.set i (v i)) init).getD j 0
      = if j < n ∧ j < init.length then v j else init.getD j 0 := by
  induction n with
  | zero => simp
  | succ m ih =>
    rw [List.range_succ, List.foldl_append, List.foldl_cons, List.foldl_nil, getD_set_any]
    rw [foldl_length_invariant _ _ _ (fun acc a => List.length_set acc a _), ih]
    by_cases h1 : m = j ∧ j < init.length
    · rw [if_pos h1, if_pos ⟨by omega, h1.2⟩, h1.1]
    · by_cases h2 : j < m ∧ j < init.length
      · rw [if_neg h1, if_pos h2, if_pos ⟨by omega, h2.2⟩]
      · rw [if_neg h1, if_neg h2, if_neg (by omega)]

/-- Helper: the key built by vncEncryptChallenge equals the key described by
the specification (truncate/zero-pad to 8 bytes, then reverse the bits of
each byte). -/
theorem vncKey_eq_spec (pwd : List Nat) :
    (List.range (min pwd.length 8)).foldl
      (fun k i => k.set i (desReverseBits (pwd.getD i 0)))
      (List.replicate 8 0) = vncAuthKey pwd := by
  have hrev0 : desReverseBits 0 = 0 := by decide
  have hlen1 : ((List.range (min pwd.length 8)).foldl
      (fun k i => k.set i (desReverseBits (pwd.getD i 0)))
      (List.replicate 8 0)).length = 8 := by
    rw [foldl_length_invariant _ _ _ (fun acc a => List.length_set acc a _)]
    simp
  have htlen : (pwd.take 8).length = min 8 pwd.length := List.length_take 8 pwd
  have hlen2 : (vncAuthKey pwd).length = 8 := by
    unfold vncAuthKey
    simp only [List.length_map, List.length_append, List.length_replicate, htlen]
    omega
  have hrepl : ∀ n i : Nat, (List.replicate n (0 : Nat)).getD i 0 = 0 := by
    intro n i
    simp only [List.getD_eq_getElem?_getD, List.getElem?_replicate]
    split <;> rfl
  apply List.ext_getElem (by omega)
  intro j hj1 hj2
  have hj8 : j < 8 := by omega
  rw [← List.getD_eq_getElem _ 0 hj1, ← List.getD_eq_getElem _ 0 hj2]
  rw [range_foldl_set_getD]
  unfold vncAuthKey
  rw [List.map_append]
  have hmaplen : (List.map desReverseBits (pwd.take 8)).length = min 8 pwd.length := by
    simp [htlen]
  by_cases hj : j < min pwd.length 8
  · rw [if_pos ⟨hj, by simpa using hj8⟩]
    rw [List.getD_append _ _ _ _ (by rw [hmaplen]; omega)]
    rw [List.getD_eq_getElem _ 0 (show j < pwd.length by omega)]
    rw [List.getD_eq_getElem _ 0
      (show j < (List.map desReverseBits (pwd.take 8)).length by rw [hmaplen]; omega)]
    rw [List.getElem_map, List.getElem_take]
  · rw [if_neg (by omega)]
    rw [List.getD_append_right _ _ _ _ (by rw [hmaplen]; omega)]
    rw [List.map_replicate, hrev0, hrepl, hrepl]

set_option maxHeartbeats 4000000 in
/-- C1: the DES-ECB block encryption function of qvncdes_p.h matches the
four published FIPS 46-3 test vectors quoted in the specification. -/
theorem C1_des_test_vectors :
    desEncryptBlock (List.replicate 8 0) (List.replicate 8 0)
      = [0x8C, 0xA6, 0x4D, 0xE9, 0xC1, 0xB1, 0x23, 0xA7]
    ∧ desEncryptBlock [0x01, 0x23, 0x45, 0x67, 0x89, 0xAB, 0xCD, 0xEF]
        [0x4E, 0x6F, 0x77, 0x20, 0x69, 0x73, 0x20, 0x74]
      = [0x3F, 0xA4, 0x0E, 0x8A, 0x98, 0x4D, 0x48, 0x15]
    ∧ desEncryptBlock (List.replicate 8 0xFF) (List.replicate 8 0xFF)
      = [0x73, 0x59, 0xB2, 0x16, 0x3E, 0x4E, 0xDC, 0x58]
    ∧ desEncryptBlock [0xFE, 0xDC, 0xBA, 0x98, 0x76, 0x54, 0x32, 0x10]
        [0x01, 0x23, 0x45, 0x67, 0x89, 0xAB, 0xCD, 0xEF]
      = [0xED, 0x39, 0xD9, 0x50, 0xFA, 0x74, 0xBC, 0xC4] := by
  refine ⟨by decide, by decide, by decide, by decide⟩

set_option maxHeartbeats 4000000 in
/-- C2: for every password and 16-byte challenge, the VNC authentication
response of vncEncryptChallenge is DES-ECB of the two challenge halves under
the key built by truncating/zero-padding the password to 8 bytes and
reversing the bit order of each byte; the result is 16 bytes; and for the
empty password with a 16-zero-byte challenge the response is
8CA64DE9C1B123A7 repeated twice. -/
theorem C2_vnc_auth_response (pwd c : List Nat) (hc : c.length = 16) :
    vncEncryptChallenge pwd c
        = desEncryptBlock (vncAuthKey pwd) (c.take 8)
          ++ desEncryptBlock (vncAuthKey pwd) (c.drop 8)
    ∧ (vncEncryptChallenge pwd c).length = 16
    ∧ vncEncryptChallenge [] (List.replicate 16 0)
        = [0x8C, 0xA6, 0x4D, 0xE9, 0xC1, 0xB1, 0x23, 0xA7,
           0x8C, 0xA6, 0x4D, 0xE9, 0xC1, 0xB1, 0x23, 0xA7] := by
  refine ⟨?_, ?_, ?_⟩
  · show (vncEncryptChallenge pwd c) = _
    unfold vncEncryptChallenge
    rw [vncKey_eq_spec]
  · unfold vncEncryptChallenge
    simp [desEncryptBlock_length]
  · decide

/-- C2 witness: the theorem applied to the empty password and the all-zero
16-byte challenge. -/
theorem C2_vnc_auth_response_witness :
    (List.replicate 16 (0 : Nat)).length = 16
    ∧ (vncEncryptChallenge [] (List.replicate 16 0)
          = desEncryptBlock (vncAuthKey []) ((List.replicate 16 (0 : Nat)).take 8)
            ++ desEncryptBlock (vncAuthKey []) ((List.replicate 16 (0 : Nat)).drop 8)
        ∧ (vncEncryptChallenge [] (List.replicate 16 0)).length = 16
        ∧ vncEncryptChallenge [] (List.replicate 16 0)
            = [0x8C, 0xA6, 0x4D, 0xE9, 0xC1, 0xB1, 0x23, 0xA7,
               0x8C, 0xA6, 0x4D, 0xE9, 0xC1, 0xB1, 0x23, 0xA7]) :=
  ⟨by simp, C2_vnc_auth_response [] (List.replicate 16 0) (by simp)⟩

/-- Helper: a byte with bit 7 clear is below 128. -/
theorem byte_and_128_eq_zero {b : Nat} (hb : b < 256) (h : b &&& 128 = 0) :
    b < 128 := by
  have h2 : b &&& 2 ^ 7 = (b.testBit 7).toNat * 2 ^ 7 := Nat.and_two_pow b 7
  norm_num at h2
  rw [h] at h2
  have h7 : b.testBit 7 = false := by
    cases hbt : b.testBit 7
    · rfl
    · rw [hbt] at h2
      simp at h2
  rw [Nat.testBit_to_div_mod] at h7
  simp only [decide_eq_false_iff_not] at h7
  norm_num at h7
  omega

/-- C7 counterexample: feeding the three-byte compact length FF FF FF to the
parseCompactLength lambda of handleTightEncoding yields 4194303 = 2^22 - 1.
The third byte contributes all 8 of its bits (a 7-bit third byte could reach
at most 2097151), and the maximum representable length is about 4 MiB, well
below the approximately 16 MiB stated by the claim. -/
theorem C7_compact_length_counterexample :
    parseCompactLength [0xFF, 0xFF, 0xFF] 0 = some (3, 4194303)
    ∧ (2097151 : Nat) < 4194303
    ∧ (4194303 : Nat) < 16777216 := by decide

/-- C7 (amended): the compact-length decoder reads 1 to 3 bytes; the first
two bytes contribute 7 bits each, assembled little-endian, with the high bit
of each of the first two bytes signaling continuation; the third byte
contributes all 8 of its bits; and the maximum representable length is
2^22 - 1 = 4194303, about 4 MiB. -/
theorem C7_compact_length_amended :
    (∀ buf off c n, (∀ b ∈ buf, b < 256) → parseCompactLength buf off = some (c, n) →
        1 ≤ c ∧ c ≤ 3 ∧ n ≤ 4194303)
    ∧ (∀ b1 : Nat, b1 &&& 0x80 = 0 → parseCompactLength [b1] 0 = some (1, b1))
    ∧ (∀ b1 b2 : Nat, b1 &&& 0x80 ≠ 0 → b2 &&& 0x80 = 0 →
        parseCompactLength [b1, b2] 0 = some (2, (b1 &&& 0x7F) ||| (b2 <<< 7)))
    ∧ (∀ b1 b2 b3 : Nat, b1 &&& 0x80 ≠ 0 → b2 &&& 0x80 ≠ 0 →
        parseCompactLength [b1, b2, b3] 0
          = some (3, (b1 &&& 0x7F) ||| ((b2 &&& 0x7F) <<< 7) ||| (b3 <<< 14)))
    ∧ parseCompactLength [0xFF, 0xFF, 0xFF] 0 = some (3, 4194303)
    ∧ (∀ buf : List Nat, parseCompactLength buf 0 = none → buf.length < 3) := by
  refine ⟨?_, ?_, ?_, ?_, by decide, ?_⟩
  · intro buf off c n hbytes hparse
    unfold parseCompactLength at hparse
    split at hparse
    · exact absurd hparse (by simp)
    · rename_i hoff
      have hb1mem : buf.getD off 0 ∈ buf := by
        rw [List.getD_eq_getElem _ 0 (by omega)]
        exact List.getElem_mem _
      have hb1 : buf.getD off 0 < 256 := hbytes _ hb1mem
      split at hparse
      · rename_i hc1
        injection hparse with hparse
        injection hparse with hparse1 hparse2
        subst hparse1; subst hparse2
        have := byte_and_128_eq_zero hb1 hc1
        omega
      · split at hparse
        · exact absurd hparse (by simp)
        · rename_i hoff1
          have hb2mem : buf.getD (off + 1) 0 ∈ buf := by
            rw [List.getD_eq_getElem _ 0 (by omega)]
            exact List.getElem_mem _
          have hb2 : buf.getD (off + 1) 0 < 256 := hbytes _ hb2mem
          split at hparse
          · rename_i hc2
            injection hparse with hparse
            injection hparse with hparse1 hparse2
            subst hparse1; subst hparse2
            have h1 : buf.getD off 0 &&& 0x7F < 2 ^ 22 := by
              have := Nat.and_le_right (n := buf.getD off 0) (m := 0x7F)
              omega
            have h2 : buf.getD (off + 1) 0 <<< 7 < 2 ^ 22 := by
              rw [Nat.shiftLeft_eq]
              have := byte_and_128_eq_zero hb2 hc2
              omega
            have := Nat.or_lt_two_pow h1 h2
            omega
          · split at hparse
            · exact absurd hparse (by simp)
            · rename_i hoff2
              have hb3mem : buf.getD (off + 2) 0 ∈ buf := by
                rw [List.getD_eq_getElem _ 0 (by omega)]
                exact List.getElem_mem _
              have hb3 : buf.getD (off + 2) 0 < 256 := hbytes _ hb3mem
              injection hparse with hparse
              injection hparse with hparse1 hparse2
              subst hparse1; subst hparse2
              have h1 : buf.getD off 0 &&& 0x7F < 2 ^ 22 := by
                have := Nat.and_le_right (n := buf.getD off 0) (m := 0x7F)
                omega
              have h2 : (buf.getD (off + 1) 0 &&& 0x7F) <<< 7 < 2 ^ 22 := by
                rw [Nat.shiftLeft_eq]
                have := Nat.and_le_right (n := buf.getD (off + 1) 0) (m := 0x7F)
                omega
              have h3 : buf.getD (off + 2) 0 <<< 14 < 2 ^ 22 := by
                rw [Nat.shiftLeft_eq]
                omega
              have h12 := Nat.or_lt_two_pow h1 h2
              have := Nat.or_lt_two_pow h12 h3
              omega
  · intro b1 h1
    simp [parseCompactLength, h1]
  · intro b1 b2 h1 h2
    simp [parseCompactLength, h1, h2]
  · intro b1 b2 b3 h1 h2
    simp [parseCompactLength, h1, h2]
  · intro buf hparse
    unfold parseCompactLength at hparse
    split at hparse
    · omega
    · split at hparse
      · exact absurd hparse (by simp)
      · split at hparse
        · omega
        · split at hparse
          · exact absurd hparse (by simp)
          · split at hparse
            · omega
            · exact absurd hparse (by simp)

/-- C3: code-bug evidence.  The claim (and the spec) say a parser whose
bytes are not all available consumes nothing and leaves all state
unchanged.  parseSecurity37, invoked with the 1-byte count buffered but the
count-many type bytes missing, consumes the count byte (the buffer [2]
becomes empty) while selecting no security type; and parserServerInit,
invoked with the fixed 24-byte header buffered but the 5 server-name bytes
missing, consumes all 24 bytes, allocates the framebuffer and emits the
size signal while remaining in ServerInitState. -/
theorem C3_partial_consume_code_bug :
    (let r := parseSecurity37
        { hstate := .SecurityState, protocolVersion := .ProtocolVersion37, inbuf := [2] }
     r.1.inbuf = [] ∧ r.1.securityType = .SecurityTypeUnknwon ∧ r.2 = [])
    ∧ (let r := parserServerInit
          { hstate := .ServerInitState, protocolVersion := .ProtocolVersion38,
            inbuf := [0, 4, 0, 3,
                      32, 24, 0, 1, 0, 255, 0, 255, 0, 255, 16, 8, 0, 0, 0, 0,
                      0, 0, 0, 5] }
       r.1.inbuf = [] ∧ r.1.hstate = .ServerInitState ∧ r.1.imageAllocated = some (4, 3)
       ∧ r.2 = [.framebufferSizeChanged 4 3]) := by
  exact ⟨by decide, by decide⟩

/-- C5: code-bug evidence.  On disconnect the client does reset the
connection state, clear the framebuffer, end the ZRLE stream, forget the
pending challenge, discard in-flight decode progress and emit
connected = false, but the four persistent Tight zlib streams are NOT
ended: reset() touches only the ZRLE stream, so an active Tight stream
bank survives the disconnect unchanged. -/
theorem C5_disconnect_reset_code_bug :
    (onDisconnected liveSessionState).1.hstate = .ProtocolVersionState
    ∧ (onDisconnected liveSessionState).1.protocolVersion = .ProtocolVersionUnknown
    ∧ (onDisconnected liveSessionState).1.securityType = .SecurityTypeUnknwon
    ∧ (onDisconnected liveSessionState).1.imageAllocated = none
    ∧ (onDisconnected liveSessionState).1.vncChallenge = []
    ∧ (onDisconnected liveSessionState).1.fbu.active = false
    ∧ (onDisconnected liveSessionState).1.zrleStreamActive = false
    ∧ (onDisconnected liveSessionState).2.head? = some (.connectionStateChanged false)
    ∧ Event.framebufferSizeChanged 0 0 ∈ (onDisconnected liveSessionState).2
    ∧ (onDisconnected liveSessionState).1.tightStreamActive
        = [true, true, true, true] := by decide

/-- C10: the public setters are idempotent change detectors: calling
setProtocolVersion, setSecurityType or setPassword with the stored value
returns with no state change and no emitted signal; in particular a
repeated setPassword while a challenge is pending produces no events, so
no authentication response is retransmitted. -/
theorem C10_setters_idempotent (s : ClientState) (v : ProtocolVersion)
    (t : SecurityType) (p : List Nat)
    (hv : s.protocolVersion = v) (ht : s.securityType = t) (hp : s.password = p) :
    setProtocolVersion s v = (s, []) ∧ setSecurityType s t = (s, [])
    ∧ setPassword s p = (s, []) := by
  refine ⟨?_, ?_, ?_⟩
  · simp [setProtocolVersion, hv]
  · simp [setSecurityType, ht]
  · simp [setPassword, hp]

/-- C10 witness: the setters applied to a state with a pending challenge
and the values already stored. -/
theorem C10_setters_idempotent_witness :
    setProtocolVersion pendingChallengeState .ProtocolVersion38 = (pendingChallengeState, [])
    ∧ setSecurityType pendingChallengeState .SecurityTypeVncAuthentication
        = (pendingChallengeState, [])
    ∧ setPassword pendingChallengeState [7] = (pendingChallengeState, []) :=
  C10_setters_idempotent pendingChallengeState .ProtocolVersion38
    .SecurityTypeVncAuthentication [7] rfl rfl rfl

/-- Helper: every event recorded by the stream-reset loop is a zend. -/
theorem applyResetFlags_events_zend (cc : Nat) (s : List Bool) :
    ∀ e ∈ (applyResetFlags cc s).2, ∃ i, e = ZEvent.zend i := by
  unfold applyResetFlags
  have aux : ∀ (l : List Nat) (st : List Bool × List ZEvent),
      (∀ e ∈ st.2, ∃ i, e = ZEvent.zend i) →
      ∀ e ∈ (l.foldl (resetStep cc) st).2, ∃ i, e = ZEvent.zend i := by
    intro l
    induction l with
    | nil => intro st h; exact h
    | cons x xs ih =>
      intro st h
      simp only [List.foldl_cons]
      apply ih
      unfold resetStep
      split
      · intro e he
        rcases List.mem_append.mp he with h1 | h2
        · exact h e h1
        · refine ⟨x, ?_⟩
          simpa using h2
      · exact h
  exact aux _ _ (by simp)

/-- Helper: resetStep at another index does not change the flag at j. -/
theorem resetStep_getD_ne (cc : Nat) (st : List Bool × List ZEvent) (i j : Nat)
    (h : i ≠ j) : (resetStep cc st i).1.getD j false = st.1.getD j false := by
  unfold resetStep
  split
  · simp [getD_set_any, h]
  · rfl

/-- Helper: after resetStep at a flagged index the flag there is clear. -/
theorem resetStep_getD_self (cc : Nat) (st : List Bool × List ZEvent) (i : Nat)
    (h : cc &&& (1 <<< i) ≠ 0) : (resetStep cc st i).1.getD i false = false := by
  unfold resetStep
  split
  · rename_i hcond
    have hi : i < st.1.length := by
      by_contra hh
      rw [List.getD_eq_default _ _ (by omega)] at hcond
      exact absurd hcond.2 (by simp)
    simp [getD_set_any, hi]
  · rename_i hcond
    rcases Decidable.em (st.1.getD i false = true) with ht | hf
    · exact absurd ⟨h, ht⟩ hcond
    · simpa using hf

/-- Helper: the reset fold does not change flags at indices it does not
visit. -/
theorem foldl_resetStep_getD_not_mem (cc : Nat) (l : List Nat) :
    ∀ (st : List Bool × List ZEvent) (j : Nat), j ∉ l →
      (l.foldl (resetStep cc) st).1.getD j false = st.1.getD j false := by
  induction l with
  | nil => intro st j _; rfl
  | cons x xs ih =>
    intro st j h
    have hx : x ≠ j := by
      intro he
      exact h (he ▸ List.mem_cons_self x xs)
    have hxs : j ∉ xs := fun hm => h (List.mem_cons_of_mem _ hm)
    simp only [List.foldl_cons]
    rw [ih _ _ hxs]
    exact resetStep_getD_ne cc st x j hx

/-- Helper: after the reset fold every visited flagged index is clear. -/
theorem foldl_resetStep_getD_mem (cc : Nat) (l : List Nat) :
    ∀ (st : List Bool × List ZEvent) (j : Nat), l.Nodup → j ∈ l →
      cc &&& (1 <<< j) ≠ 0 →
      (l.foldl (resetStep cc) st).1.getD j false = false := by
  induction l with
  | nil => intro st j _ hj _; cases hj
  | cons x xs ih =>
    intro st j hnd hj hflag
    simp only [List.foldl_cons]
    rcases List.mem_cons.mp hj with he | hm
    · subst he
      have hxs : j ∉ xs := (List.nodup_cons.mp hnd).1
      rw [foldl_resetStep_getD_not_mem cc xs _ j hxs]
      exact resetStep_getD_self cc st j hflag
    · exact ih _ j (List.nodup_cons.mp hnd).2 hm hflag

/-- Helper: when no visited index is both flagged and active, the reset
fold is the identity. -/
theorem foldl_resetStep_noop (cc : Nat) (l : List Nat) :
    ∀ (st : List Bool × List ZEvent),
      (∀ i ∈ l, ¬(cc &&& (1 <<< i) ≠ 0 ∧ st.1.getD i false = true)) →
      l.foldl (resetStep cc) st = st := by
  induction l with
  | nil => intro st _; rfl
  | cons x xs ih =>
    intro st h
    have hstep : resetStep cc st x = st := by
      unfold resetStep
      rw [if_neg (h x (List.mem_cons_self x xs))]
    simp only [List.foldl_cons, hstep]
    exact ih st (fun i hi => h i (List.mem_cons_of_mem _ hi))

/-- Helper: applying the stream-reset loop a second time with the same
control byte finds no flagged stream still active, so it changes nothing
and records no event. -/
theorem applyResetFlags_idem (cc : Nat) (s : List Bool) :
    applyResetFlags cc (applyResetFlags cc s).1 = ((applyResetFlags cc s).1, []) := by
  unfold applyResetFlags
  apply foldl_resetStep_noop
  intro i hi
  rintro ⟨hflag, hact⟩
  have hclear := foldl_resetStep_getD_mem cc (List.range 4) (s, []) i
    (List.nodup_range 4) hi hflag
  rw [hclear] at hact
  cases hact

/-- Helper: whether handleTightEncoding completes depends only on the
pixel format, the rectangle and the buffer, never on the stream flags. -/
theorem handleTightEncoding_complete_independent (pf : PixelFormat) (r : VRect)
    (s t : List Bool) (buf : List Nat) :
    (handleTightEncoding pf r s buf).complete
      = (handleTightEncoding pf r t buf).complete := by
  unfold handleTightEncoding
  split
  · rfl
  · cases htr : tightRecordLength pf r buf with
    | none => simp [htr]
    | some n =>
      cases hsu : tightStreamUse pf r buf with
      | none => simp [htr, hsu]
      | some su =>
        simp only [htr, hsu]
        split <;> split <;> rfl

/-- Helper: shape of a handleTightEncoding result: it either completes, or
the buffer was empty and nothing happened at all, or it returns incomplete
with exactly the stream-reset loop applied for the peeked control byte. -/
theorem handleTightEncoding_shape (pf : PixelFormat) (r : VRect)
    (streams : List Bool) (buf : List Nat) :
    (handleTightEncoding pf r streams buf).complete = true
    ∨ (buf = [] ∧ handleTightEncoding pf r streams buf = ⟨false, 0, streams, []⟩)
    ∨ handleTightEncoding pf r streams buf
        = ⟨false, 0, (applyResetFlags (buf.getD 0 0) streams).1,
           (applyResetFlags (buf.getD 0 0) streams).2⟩ := by
  unfold handleTightEncoding
  split
  · rename_i hlen
    exact Or.inr (Or.inl ⟨List.length_eq_zero.mp (by omega), rfl⟩)
  · cases htr : tightRecordLength pf r buf with
    | none => exact Or.inr (Or.inr (by simp [htr]))
    | some n =>
      cases hsu : tightStreamUse pf r buf with
      | none => exact Or.inl (by simp [htr, hsu])
      | some su =>
        refine Or.inl ?_
        simp only [htr, hsu]
        split
        · rfl
        · rfl

/-- C4 counterexample: the claim as stated is false.  With Tight stream 0
active and only the Fill control byte 0x81 (reset flag for stream 0)
buffered, handleTightEncoding returns incomplete without consuming bytes,
yet it has already ended stream 0: the zlib streams are touched by an
incomplete attempt. -/
theorem C4_stream_touch_counterexample :
    (handleTightEncoding pf32 { x := 0, y := 0, w := 4, h := 4 }
        [true, false, false, false] [0x81]).complete = false
    ∧ (handleTightEncoding pf32 { x := 0, y := 0, w := 4, h := 4 }
        [true, false, false, false] [0x81]).consumed = 0
    ∧ (handleTightEncoding pf32 { x := 0, y := 0, w := 4, h := 4 }
        [true, false, false, false] [0x81]).events = [ZEvent.zend 0]
    ∧ (handleTightEncoding pf32 { x := 0, y := 0, w := 4, h := 4 }
        [true, false, false, false] [0x81]).streams
        = [false, false, false, false] := by decide

/-- C4 (amended): when the complete Tight record is not yet buffered the
decoder consumes no bytes and neither initializes nor feeds any zlib
stream; however, the stream-reset flags of the peeked compression-control
byte are applied already by this incomplete attempt (flagged active
streams are ended).  Ending deactivates the flagged streams, so the
flags take effect exactly once: a retry of the same rectangle performs no
further stream action before the data is complete. -/
theorem C4_tight_incomplete_amended (pf : PixelFormat) (r : VRect)
    (streams : List Bool) (buf : List Nat)
    (h : (handleTightEncoding pf r streams buf).complete = false) :
    (handleTightEncoding pf r streams buf).consumed = 0
    ∧ (∀ e ∈ (handleTightEncoding pf r streams buf).events,
        ∃ i, e = ZEvent.zend i)
    ∧ (buf ≠ [] →
        (handleTightEncoding pf r streams buf).streams
          = (applyResetFlags (buf.getD 0 0) streams).1
        ∧ (handleTightEncoding pf r
            (handleTightEncoding pf r streams buf).streams buf).events
          = []) := by
  rcases handleTightEncoding_shape pf r streams buf with hc | ⟨hb, hs⟩ | hs
  · rw [hc] at h; cases h
  · rw [hs]
    exact ⟨rfl, by simp, fun hnb => absurd hb hnb⟩
  · rw [hs]
    refine ⟨rfl, applyResetFlags_events_zend _ _, fun hnb => ⟨rfl, ?_⟩⟩
    have hretc : (handleTightEncoding pf r
        (applyResetFlags (buf.getD 0 0) streams).1 buf).complete = false := by
      rw [handleTightEncoding_complete_independent pf r _ streams]
      exact h
    rcases handleTightEncoding_shape pf r
        (applyResetFlags (buf.getD 0 0) streams).1 buf with hc2 | ⟨hb2, _⟩ | hs2
    · rw [hc2] at hretc; cases hretc
    · exact absurd hb2 hnb
    · rw [hs2]
      exact congrArg Prod.snd (applyResetFlags_idem (buf.getD 0 0) streams)

/-- C4 witness: the amended theorem applied to the counterexample input. -/
theorem C4_tight_incomplete_amended_witness :
    (handleTightEncoding pf32 { x := 0, y := 0, w := 4, h := 4 }
        [true, false, false, false] [0x81]).consumed = 0
    ∧ (∀ e ∈ (handleTightEncoding pf32 { x := 0, y := 0, w := 4, h := 4 }
        [true, false, false, false] [0x81]).events, ∃ i, e = ZEvent.zend i)
    ∧ ([0x81] ≠ ([] : List Nat) →
        (handleTightEncoding pf32 { x := 0, y := 0, w := 4, h := 4 }
            [true, false, false, false] [0x81]).streams
          = (applyResetFlags (([0x81] : List Nat).getD 0 0)
              [true, false, false, false]).1
        ∧ (handleTightEncoding pf32 { x := 0, y := 0, w := 4, h := 4 }
            (handleTightEncoding pf32 { x := 0, y := 0, w := 4, h := 4 }
              [true, false, false, false] [0x81]).streams [0x81]).events
          = []) :=
  C4_tight_incomplete_amended pf32 { x := 0, y := 0, w := 4, h := 4 }
    [true, false, false, false] [0x81] (by decide)

/-- Helper: a completed Hextile tile leaves the background color unchanged
unless BackgroundSpecified is set, and the foreground unchanged unless both
AnySubrects and ForegroundSpecified are set. -/
theorem hexTile_persist (pf : PixelFormat) (r : VRect) (ty tx bg fg : Nat)
    (img : FbImage) (buf : List Nat) (out : Nat × Nat × FbImage × List Nat)
    (hout : hexTile pf r ty tx bg fg img buf = some out) :
    (buf.getD 0 0 &&& 2 = 0 → out.1 = bg)
    ∧ (buf.getD 0 0 &&& 8 = 0 ∨ buf.getD 0 0 &&& 4 = 0 → out.2.1 = fg) := by
  simp only [hexTile] at hout
  split at hout
  · simp at hout
  · split at hout
    · simp at hout
    · split at hout
      · simp at hout
      · split at hout
        · rw [Option.some.injEq] at hout
          rw [← hout]
          exact ⟨fun _ => rfl, fun _ => rfl⟩
        · rename_i hraw
          split at hout
          · rename_i h8
            rw [Option.some.injEq] at hout
            rw [← hout]
            constructor
            · intro h2
              rw [if_neg (show ¬(buf.getD 0 0 &&& 2 ≠ 0 ∧ pf.bitsPerPixel / 8 = 4)
                from fun hc => hc.1 h2)]
            · intro hor
              rcases hor with h8z | h4
              · exact absurd h8z h8
              · rw [if_neg (show ¬(buf.getD 0 0 &&& 4 ≠ 0 ∧ pf.bitsPerPixel / 8 = 4)
                  from fun hc => hc.1 h4)]
          · rw [Option.some.injEq] at hout
            rw [← hout]
            constructor
            · intro h2
              rw [if_neg (show ¬(buf.getD 0 0 &&& 2 ≠ 0 ∧ pf.bitsPerPixel / 8 = 4)
                from fun hc => hc.1 h2)]
            · intro _
              rfl

/-- Helper: pointwise value of a single filled row. -/
theorem fillRow_eval (x0 yy c : Nat) (tw : Nat) (im : FbImage) (a b : Nat) :
    ((List.range tw).foldl (fun im2 x => setPixel im2 (x0 + x) yy c) im) a b
      = if b = yy ∧ x0 ≤ a ∧ a < x0 + tw then c else im a b := by
  induction tw with
  | zero =>
    simp only [List.range_zero, List.foldl_nil]
    rw [if_neg (by omega)]
  | succ m ih =>
    rw [List.range_succ, List.foldl_append, List.foldl_cons, List.foldl_nil]
    show (if a = x0 + m ∧ b = yy then c
      else ((List.range m).foldl (fun im2 x => setPixel im2 (x0 + x) yy c) im) a b) = _
    rw [ih]
    split_ifs <;> first | rfl | omega

/-- Helper: pointwise value of a filled region: inside the region the fill
color, outside the underlying image. -/
theorem fillRegion_eval (img : FbImage) (x0 y0 tw th c : Nat) (a b : Nat) :
    fillRegion img x0 y0 tw th c a b
      = if x0 ≤ a ∧ a < x0 + tw ∧ y0 ≤ b ∧ b < y0 + th then c else img a b := by
  unfold fillRegion
  induction th with
  | zero =>
    simp only [List.range_zero, List.foldl_nil]
    rw [if_neg (by omega)]
  | succ m ih =>
    rw [List.range_succ, List.foldl_append, List.foldl_cons, List.foldl_nil]
    rw [fillRow_eval]
    rw [ih]
    split_ifs <;> first | rfl | omega

/-- C6: within a Hextile rectangle the background and foreground colors
persist from one tile to the next unless overridden by the
BackgroundSpecified or ForegroundSpecified subencoding flags; and for the
32-by-16 rectangle of scenario E4 (first tile BackgroundSpecified with a
red pixel, second tile subencoding 0) the whole rectangle ends up solid
red. -/
theorem C6_hextile_color_persistence :
    (∀ (pf : PixelFormat) (r : VRect) (ty tx bg fg : Nat) (img : FbImage)
        (buf : List Nat) (out : Nat × Nat × FbImage × List Nat),
        hexTile pf r ty tx bg fg img buf = some out →
        (buf.getD 0 0 &&& 2 = 0 → out.1 = bg)
        ∧ (buf.getD 0 0 &&& 8 = 0 ∨ buf.getD 0 0 &&& 4 = 0 → out.2.1 = fg))
    ∧ (hexProcess pf32 { x := 0, y := 0, w := 32, h := 16 } 0 0 0 0
        (fun _ _ => 0) [2, 0, 0, 255, 0, 0]).ok = true
    ∧ (∀ x y : Nat, x < 32 → y < 16 →
        (hexProcess pf32 { x := 0, y := 0, w := 32, h := 16 } 0 0 0 0
          (fun _ _ => 0) [2, 0, 0, 255, 0, 0]).img x y = qRgb 255 0 0) := by
  have hres : hexProcess pf32 { x := 0, y := 0, w := 32, h := 16 } 0 0 0 0
      (fun _ _ => 0) [2, 0, 0, 255, 0, 0]
      = ⟨true, 0, 0, 0xFF0000, 0,
          fillRegion (fillRegion (fun _ _ => 0) 0 0 16 16 (rgbFromPixel pf32 0xFF0000))
            16 0 16 16 (rgbFromPixel pf32 0xFF0000), []⟩ := by
    rw [hexProcess.eq_def]
    norm_num
    rw [show (hexTile pf32 { x := 0, y := 0, w := 32, h := 16 } 0 0 0 0
        (fun _ _ => 0) [2, 0, 0, 255, 0, 0])
      = some (0xFF0000, 0,
          fillRegion (fun _ _ => 0) 0 0 16 16 (rgbFromPixel pf32 0xFF0000), [0]) from rfl]
    dsimp only
    rw [hexProcess.eq_def]
    norm_num
    rw [show (hexTile pf32 { x := 0, y := 0, w := 32, h := 16 } 0 16 0xFF0000 0
          (fillRegion (fun _ _ => 0) 0 0 16 16 (rgbFromPixel pf32 0xFF0000)) [0])
      = some (0xFF0000, 0,
          fillRegion (fillRegion (fun _ _ => 0) 0 0 16 16 (rgbFromPixel pf32 0xFF0000))
            16 0 16 16 (rgbFromPixel pf32 0xFF0000), []) from rfl]
    dsimp only
    rw [hexProcess.eq_def]
    norm_num
    rw [hexProcess.eq_def]
    norm_num
  refine ⟨hexTile_persist, by rw [hres], ?_⟩
  intro x y hx hy
  rw [hres]
  show fillRegion (fillRegion (fun _ _ => 0) 0 0 16 16 (rgbFromPixel pf32 0xFF0000))
      16 0 16 16 (rgbFromPixel pf32 0xFF0000) x y = qRgb 255 0 0
  rw [fillRegion_eval, fillRegion_eval]
  rw [show rgbFromPixel pf32 0xFF0000 = qRgb 255 0 0 from rfl]
  split_ifs <;> first | rfl | omega

/-- C8: reading a rectangle header (and starting a FramebufferUpdate
message) resets only the Hextile tile cursor, never the inherited colors;
consequently a Hextile rectangle whose first tile has subencoding 0 is
painted with whatever background color was left in fbu.hextileBG by the
previous Hextile rectangle; the initial value of that field is 0, which
renders as black. -/
theorem C8_hextile_inherited_background :
    (∀ (fbu : FbuState) (buf : List Nat) (out : FbuState) (rest : List Nat),
        readRectHeader fbu buf = some (out, rest) →
        out.hextileBG = fbu.hextileBG ∧ out.hextileFG = fbu.hextileFG
        ∧ out.hextileTX = 0 ∧ out.hextileTY = 0)
    ∧ (∀ (fbu : FbuState) (buf : List Nat) (out : FbuState) (rest : List Nat),
        framebufferUpdateBegin fbu buf = some (out, rest) →
        out.hextileBG = fbu.hextileBG ∧ out.hextileFG = fbu.hextileFG)
    ∧ (∀ (bg fg : Nat) (img : FbImage),
        (hexProcess pf32 { x := 0, y := 0, w := 16, h := 16 } 0 0 bg fg img [0]).ok = true
        ∧ ∀ x y : Nat, x < 16 → y < 16 →
            (hexProcess pf32 { x := 0, y := 0, w := 16, h := 16 } 0 0 bg fg img [0]).img x y
              = rgbFromPixel pf32 bg)
    ∧ ({} : FbuState).hextileBG = 0
    ∧ rgbFromPixel pf32 0 = qRgb 0 0 0 := by
  refine ⟨?_, ?_, ?_, rfl, rfl⟩
  · intro fbu buf out rest h
    unfold readRectHeader at h
    split at h
    · simp at h
    · rw [Option.some.injEq, Prod.mk.injEq] at h
      obtain ⟨h1, _⟩ := h
      rw [← h1]
      exact ⟨rfl, rfl, rfl, rfl⟩
  · intro fbu buf out rest h
    unfold framebufferUpdateBegin at h
    split at h
    · simp at h
    · rw [Option.some.injEq, Prod.mk.injEq] at h
      obtain ⟨h1, _⟩ := h
      rw [← h1]
      exact ⟨rfl, rfl⟩
  · intro bg fg img
    have h1 : hexTile pf32 { x := 0, y := 0, w := 16, h := 16 } 0 0 bg fg img [0]
        = some (bg, fg, fillRegion img 0 0 16 16 (rgbFromPixel pf32 bg), []) := rfl
    have hres : hexProcess pf32 { x := 0, y := 0, w := 16, h := 16 } 0 0 bg fg img [0]
        = ⟨true, 0, 0, bg, fg, fillRegion img 0 0 16 16 (rgbFromPixel pf32 bg), []⟩ := by
      rw [hexProcess.eq_def]
      norm_num
      rw [h1]
      dsimp only
      rw [hexProcess.eq_def]
      norm_num
      rw [hexProcess.eq_def]
      norm_num
    refine ⟨by rw [hres], ?_⟩
    intro x y hx hy
    rw [hres]
    show fillRegion img 0 0 16 16 (rgbFromPixel pf32 bg) x y = rgbFromPixel pf32 bg
    rw [fillRegion_eval]
    split_ifs <;> first | rfl | omega

/-- Helper: the tile loop of the ZRLE decompressed-data stage reports
success from every exit. -/
theorem zrleTiles_ok (pf : PixelFormat) (r : VRect) (ty tx off : Nat)
    (data : List Nat) (img : FbImage) :
    (zrleTiles pf r ty tx off data img).ok = true := by
  have main : ∀ a : Nat, ∀ ty2, r.h - ty2 ≤ a →
      ∀ b : Nat, ∀ tx2, r.w - tx2 ≤ b →
      ∀ off2 data2 img2, (zrleTiles pf r ty2 tx2 off2 data2 img2).ok = true := by
    intro a
    induction a with
    | zero =>
      intro ty2 hty b tx2 htx off2 data2 img2
      rw [zrleTiles.eq_def, if_neg (by omega)]
    | succ a iha =>
      intro ty2 hty b
      induction b with
      | zero =>
        intro tx2 htx off2 data2 img2
        rw [zrleTiles.eq_def]
        by_cases hy : ty2 < r.h
        · rw [if_pos hy, if_neg (by omega)]
          exact iha (ty2 + 64) (by omega) r.w 0 (by omega) off2 data2 img2
        · rw [if_neg hy]
      | succ b ihb =>
        intro tx2 htx off2 data2 img2
        rw [zrleTiles.eq_def]
        by_cases hy : ty2 < r.h
        · rw [if_pos hy]
          by_cases hx : tx2 < r.w
          · rw [if_pos hx]
            have hrec : ∀ off3 data3 img3,
                (zrleTiles pf r ty2 (tx2 + 64) off3 data3 img3).ok = true :=
              fun off3 data3 img3 => ihb (tx2 + 64) (by omega) off3 data3 img3
            dsimp only
            repeat' split
            all_goals first | rfl | apply hrec
          · rw [if_neg hx]
            exact iha (ty2 + 64) (by omega) r.w 0 (by omega) off2 data2 img2
        · rw [if_neg hy]
  exact main (r.h - ty) ty (by omega) (r.w - tx) tx (by omega) off data img

/-- Helper: value of the palette-RLE out-of-range instance used by C9:
subencoding 130 gives a two-entry palette, the single-pixel index byte 5 is
at or past the palette size and paints qRgb(0,0,0), and the data then ends
inside the tile loop, leaving the second pixel untouched. -/
theorem zrle_palette_rle_instance :
    zrleTiles pf32 { x := 0, y := 0, w := 2, h := 1 } 0 0 0
      [130, 0, 0, 255, 10, 20, 30, 5] (fun _ _ => 7)
      = ⟨true, setPixel (fun _ _ => 7) 0 0 (qRgb 0 0 0), false⟩ := by
  rw [zrleTiles.eq_def]
  norm_num
  rw [show zrleReadPalette pf32 [130, 0, 0, 255, 10, 20, 30, 5] 2 1
    = ([qRgb 255 0 0, qRgb 30 20 10], 7) from rfl]
  dsimp only
  rw [show zrlePaletteRle pf32 [130, 0, 0, 255, 10, 20, 30, 5] 0 0 2 1
      [qRgb 255 0 0, qRgb 30 20 10] 2 0 7 (fun _ _ => 7)
    = (setPixel (fun _ _ => 7) 0 0 (qRgb 0 0 0), 8) from by
      rw [zrlePaletteRle.eq_def]
      dsimp only
      rw [if_pos (by decide), if_pos (by decide), if_neg (by decide), if_neg (by decide)]
      norm_num
      rw [zrlePaletteRle.eq_def]
      rw [if_pos (by decide), if_neg (by decide)]]
  dsimp only
  rw [zrleTiles.eq_def]
  norm_num
  rw [zrleTiles.eq_def]
  norm_num

/-- Helper: value of the truncated-stream instance used by C9: the first
tile is a solid fill, then the decompressed data ends before the second
tile, which stops the tile loop with the truncation warning while the
first tile keeps its pixels. -/
theorem zrle_truncated_instance :
    zrleTiles pf32 { x := 0, y := 0, w := 128, h := 1 } 0 0 0
      [1, 11, 22, 33] (fun _ _ => 7)
      = ⟨true, fillRegion (fun _ _ => 7) 0 0 64 1 (qRgb 33 22 11), true⟩ := by
  rw [zrleTiles.eq_def]
  norm_num
  rw [show readCPixel pf32 [1, 11, 22, 33] 1 = (0x21160B, 4) from rfl]
  dsimp only
  rw [show rgbFromPixel pf32 0x21160B = qRgb 33 22 11 from rfl]
  rw [zrleTiles.eq_def]
  norm_num

/-- C9: the decompressed-data stage of the ZRLE decoder is total on
malformed data and always reports the rectangle complete: every exit of
the tile loop returns true; a palette-RLE index byte at or past the
palette size paints black instead of failing; and a decompressed stream
that ends before all tiles are decoded stops the loop with a warning while
the tiles already decoded keep their pixels. -/
theorem C9_zrle_total_decoder :
    (∀ (pf : PixelFormat) (r : VRect) (data : List Nat) (img : FbImage),
        (zrleDecodeTiles pf r data img).ok = true)
    ∧ ((zrleDecodeTiles pf32 { x := 0, y := 0, w := 2, h := 1 }
          [130, 0, 0, 255, 10, 20, 30, 5] (fun _ _ => 7)).ok = true
       ∧ (zrleDecodeTiles pf32 { x := 0, y := 0, w := 2, h := 1 }
          [130, 0, 0, 255, 10, 20, 30, 5] (fun _ _ => 7)).truncated = false
       ∧ (zrleDecodeTiles pf32 { x := 0, y := 0, w := 2, h := 1 }
          [130, 0, 0, 255, 10, 20, 30, 5] (fun _ _ => 7)).img 0 0 = qRgb 0 0 0
       ∧ (zrleDecodeTiles pf32 { x := 0, y := 0, w := 2, h := 1 }
          [130, 0, 0, 255, 10, 20, 30, 5] (fun _ _ => 7)).img 1 0 = 7)
    ∧ ((zrleDecodeTiles pf32 { x := 0, y := 0, w := 128, h := 1 }
          [1, 11, 22, 33] (fun _ _ => 7)).ok = true
       ∧ (zrleDecodeTiles pf32 { x := 0, y := 0, w := 128, h := 1 }
          [1, 11, 22, 33] (fun _ _ => 7)).truncated = true
       ∧ (zrleDecodeTiles pf32 { x := 0, y := 0, w := 128, h := 1 }
          [1, 11, 22, 33] (fun _ _ => 7)).img 0 0 = qRgb 33 22 11
       ∧ (zrleDecodeTiles pf32 { x := 0, y := 0, w := 128, h := 1 }
          [1, 11, 22, 33] (fun _ _ => 7)).img 63 0 = qRgb 33 22 11
       ∧ (zrleDecodeTiles pf32 { x := 0, y := 0, w := 128, h := 1 }
          [1, 11, 22, 33] (fun _ _ => 7)).img 64 0 = 7) := by
  refine ⟨fun pf r data img => zrleTiles_ok pf r 0 0 0 data img, ?_, ?_⟩
  · unfold zrleDecodeTiles
    rw [zrle_palette_rle_instance]
    refine ⟨rfl, rfl, rfl, rfl⟩
  · unfold zrleDecodeTiles
    rw [zrle_truncated_instance]
    refine ⟨rfl, rfl, ?_, ?_, ?_⟩
    · dsimp only
      rw [fillRegion_eval]
      norm_num
    · dsimp only
      rw [fillRegion_eval]
      norm_num
    · dsimp only
      rw [fillRegion_eval]
      norm_num
